import Mathlib

/-!
Verification of the tournament bracket/standings core of the
AAA-SportsTournament repository, shallowly embedded in Lean 4.

The embedding covers:
* the legacy team-based fixture generator of `src/server/routes/fixtures.js`
  (round-robin and single-elimination branches of `POST /generate/:tournamentId`);
* the canonical `participant1`/`participant2` fixture model of
  `src/server/models/Fixture.js` with its pre-save middleware;
* result recording and winner progression of
  `src/server/controllers/tournamentController.js`;
* the round-robin standings calculator of the same controller;
* the registration capacity bookkeeping of the registrations router
  (`src/unnamed/part_007`).

Mongo ObjectIds are modelled as natural numbers; a Mongo collection is a
Lean list of documents in insertion order.  Database persistence mechanics
(network, BSON, timestamps) are out of scope, as are the floating-point
`winPercentage` field (unused by any ranking comparator) and real dates
(schedule offsets are kept as whole days from the tournament start).
-/

namespace SportsTournament

/-- Opaque document identifier (Mongo ObjectId). -/
abbrev Ident := Nat

/-! ## Legacy team-based generator (src/server/routes/fixtures.js) -/

/-- Status enum of the legacy `Team` model (`src/unnamed/part_005`). -/
inductive TeamStatus
  | registered
  | confirmed
  | withdrawn
  deriving DecidableEq, Repr

/-- A legacy `Team` document: only the fields the generator reads. -/
structure Team where
  id : Ident
  status : TeamStatus
  deriving DecidableEq, Repr

/-- A fixture document as pushed by `POST /generate/:tournamentId`
(`src/server/routes/fixtures.js`, lines 204-252).  `round` is the string
round label used there, and `dayOffset` is the number of days added to
`tournament.startDate` for `scheduledDate`. -/
structure GenFixture where
  round : String
  matchNumber : Nat
  homeTeam : Ident
  awayTeam : Ident
  dayOffset : Nat
  deriving DecidableEq, Repr

/-- The nested round-robin loop of the `league` branch
(`for i; for j = i+1 ...`): one ordered pair per `i < j`, emitted with `i`
ascending and `j` ascending, exactly as the source's iteration order. -/
def leaguePairs {α : Type} : List α → List (α × α)
  | [] => []
  | t :: ts => (ts.map fun u => (t, u)) ++ leaguePairs ts

/-- Round-robin generation (the `league` branch): match numbers count from 1
across the call, and `scheduledDate` advances one day every two matches
(`Math.floor((matchNumber - 1) / 2)`). -/
def generateLeagueFixtures (teams : List Ident) : List GenFixture :=
  (leaguePairs teams).enum.map fun ki =>
    { round := "League"
      matchNumber := ki.1 + 1
      homeTeam := ki.2.1
      awayTeam := ki.2.2
      dayOffset := ki.1 / 2 }

/-- Fuel-driven halving loop computing `⌈log₂ m⌉` (fuel `≥ m` suffices);
structural recursion keeps it kernel-reducible. -/
def ceilLog2Go : Nat → Nat → Nat
  | 0, _ => 0
  | fuel + 1, m => if m ≤ 1 then 0 else ceilLog2Go fuel ((m + 1) / 2) + 1

/-- `⌈log₂ n⌉` as a computable function; proved equal to `Nat.clog 2` in
`ceilLog2_eq_clog` below. -/
def ceilLog2 (n : Nat) : Nat := ceilLog2Go n n

/-- `Math.ceil(Math.log2(n))` of the knockout branch (exact for the integer
arguments involved, since `Math.log2` is exact on powers of two and
`Math.ceil` absorbs the float error strictly between powers). -/
def knockoutRounds (n : Nat) : Nat := ceilLog2 n

/-- Round label of the knockout branch: `Final` for the last round,
`Semi-Final` for the one before it, `Round k` otherwise. -/
def knockoutRoundName (round rounds : Nat) : String :=
  if round = rounds then "Final"
  else if round = rounds - 1 then "Semi-Final"
  else "Round " ++ toString round

/-- The first-round pairing loop (`for i += 2; if i + 1 < length`): adjacent
input teams are paired two at a time; a trailing unpaired team yields no
fixture. -/
def firstRoundPairs {α : Type} : List α → List (α × α)
  | a :: b :: ts => (a, b) :: firstRoundPairs ts
  | _ => []

/-- Single-elimination generation (the `knockout` branch).  The source's
round loop is exited by an unconditional `break` after the first iteration
("For now, just create first round"), so only round 1 is produced; the
computed `rounds` value feeds only the round label.  Round-1 day offset is
`(round - 1) * 3 = 0`. -/
def generateKnockoutFixtures (teams : List Ident) : List GenFixture :=
  let rounds := knockoutRounds teams.length
  (firstRoundPairs teams).enum.map fun ki =>
    { round := knockoutRoundName 1 rounds
      matchNumber := ki.1 + 1
      homeTeam := ki.2.1
      awayTeam := ki.2.2
      dayOffset := 0 }

/-- Tournament format strings accepted by the legacy generator endpoint. -/
inductive GenFormat
  | league
  | knockout
  | other
  deriving DecidableEq, Repr

/-- Error kinds surfaced by the generator endpoint: the explicit
fewer-than-two-teams rejection, and the caught `insertMany` validation
failure answered as a 500. -/
inductive GenError
  | insufficientParticipants
  | schemaValidation
  deriving DecidableEq, Repr

/-- The slice of persistent state `POST /generate/:tournamentId` can touch:
the tournament's fixture set and the tournament's status string. -/
structure GenState where
  fixtures : List GenFixture
  tournamentStatus : String
  deriving DecidableEq, Repr

set_option linter.unusedVariables false in
/-- The generator endpoint (`src/server/routes/fixtures.js`, lines 182-268):
filter the tournament's teams to `confirmed` and reject with fewer than two
of them **before** `Fixture.deleteMany`.  Otherwise the endpoint wipes the
fixture set and hands the in-memory array — `generateLeagueFixtures` or
`generateKnockoutFixtures` of the eligible teams, proved about separately —
to `Fixture.insertMany`.  `insertMany` validates each document against the
canonical `fixtureSchema` (`src/server/models/Fixture.js`), and the legacy
document shape built here has a string `round` and none of the required
`participant1`, `participant2` and `bracketPosition` paths, so validation
rejects every document: nothing is inserted, the caught error is answered
as a 500, and the fixture set stays empty — the `deleteMany` has already
run.  The endpoint never writes the tournament's status. -/
def generateEndpoint (format : GenFormat) (teams : List Team) (st : GenState) :
    GenState × Except GenError (List GenFixture) :=
  let eligible := (teams.filter fun t => t.status = TeamStatus.confirmed).map Team.id
  if eligible.length < 2 then
    (st, Except.error GenError.insufficientParticipants)
  else
    ({ fixtures := [], tournamentStatus := st.tournamentStatus },
      Except.error GenError.schemaValidation)

/-! ## Canonical fixture model (src/server/models/Fixture.js) -/

/-- Status enum of `fixtureSchema.status`. -/
inductive FxStatus
  | Scheduled
  | InProgress
  | Completed
  | Cancelled
  | Postponed
  deriving DecidableEq, Repr

/-- A `matchResultSchema` value: two non-negative scores and a forfeit flag
(the timestamp, notes and per-set breakdown carry no bracket logic and are
omitted). -/
structure MatchResult where
  participant1Score : Nat
  participant2Score : Nat
  forfeit : Bool
  deriving DecidableEq, Repr

/-- A `Fixture` document, restricted to the fields the bracket logic reads.
`participant1`/`participant2` are `Option` so that the slot-filling queries
of winner progression (`$or: [{participant1: null}, {participant2: null}]`)
can be expressed; the schema's `required` flags are modelled by
`requiredFieldsOk`, which every save validates. -/
structure Fixture where
  id : Ident
  round : Nat
  matchNumber : Nat
  participant1 : Option Ident
  participant2 : Option Ident
  result : Option MatchResult
  status : FxStatus
  winner : Option Ident
  deriving DecidableEq, Repr

/-- The schema's `required: true` document validation for the two
participant slots (`src/server/models/Fixture.js`, lines 57-66): a document
with an unset slot fails validation and is never stored. -/
def requiredFieldsOk (f : Fixture) : Bool :=
  f.participant1.isSome && f.participant2.isSome

/-- The second pre-save hook (`src/server/models/Fixture.js`, lines 179-186):
a save is rejected when both slots are set and reference the same
participant. -/
def participantsDifferent (f : Fixture) : Bool :=
  match f.participant1, f.participant2 with
  | some a, some b => a ≠ b
  | _, _ => true

/-- The first pre-save hook (`src/server/models/Fixture.js`, lines 136-157),
run when the document's `result` path was modified: derive the winner from
the strictly higher score (ties leave `winner` untouched) and force the
status to `Completed`.  (`actualDuration` bookkeeping is date arithmetic
with no bracket effect and is omitted.) -/
def applyResultHook (f : Fixture) : Fixture :=
  match f.result with
  | none => f
  | some r =>
    let f1 :=
      if r.participant1Score > r.participant2Score then
        { f with winner := f.participant1 }
      else if r.participant2Score > r.participant1Score then
        { f with winner := f.participant2 }
      else f
    if f1.status ≠ FxStatus.Completed then { f1 with status := FxStatus.Completed } else f1

/-- `document.save()` as `Fixture.js` sees it: apply the winner-derivation
hook when the result path is modified, then validate — Mongoose always runs
the schema's document validation on `save()` (no `validateBeforeSave`
override exists in the repository), so the `required: true` flags on both
participant slots reject any document with an unset slot, and the
duplicate-participant pre-save hook rejects a document whose two slots hold
the same participant.  `none` models a rejected save (the document is not
persisted). -/
def fixtureSave (resultModified : Bool) (f : Fixture) : Option Fixture :=
  let f1 := if resultModified then applyResultHook f else f
  if requiredFieldsOk f1 && participantsDifferent f1 then some f1 else none

/-! ## Result recording (tournamentController.js, updateFixtureResult) -/

/-- Winner derivation of `updateFixtureResult`
(`src/server/controllers/tournamentController.js`, lines 535-549): without a
forfeit flag the strictly higher score wins and a tie leaves the winner
unchanged; with a forfeit flag the participant with the higher recorded
score is chosen (`participant2` on a tie, per the ternary). -/
def deriveWinner (f : Fixture) (r : MatchResult) : Option Ident :=
  if !r.forfeit then
    if r.participant1Score > r.participant2Score then f.participant1
    else if r.participant2Score > r.participant1Score then f.participant2
    else f.winner
  else
    if r.participant1Score > r.participant2Score then f.participant1 else f.participant2

/-- The mutation performed by `updateFixtureResult` on the fixture document
(lines 530-551): store the result, set the status to the request's status or
`Completed`, derive the winner, then `save()` (which re-runs the pre-save
hooks with the result path modified).  `none` models a rejected save. -/
def updateFixtureResult (f : Fixture) (r : MatchResult) (reqStatus : Option FxStatus) :
    Option Fixture :=
  fixtureSave true
    { f with
      result := some r
      status := reqStatus.getD FxStatus.Completed
      winner := deriveWinner f r }

/-! ## Winner progression (tournamentController.js, lines 801-833) -/

/-- The `$or` filter of the next-round query: at least one slot unset. -/
def openSlot (f : Fixture) : Bool :=
  f.participant1.isNone || f.participant2.isNone

/-- `.find({round: next, $or: [...]}).sort({matchNumber: 1})` followed by
taking the first hit: the next-round fixtures with an unfilled slot, ordered
by match number, head first. -/
def nextOpenFixture (st : List Fixture) (c : Fixture) : Option Fixture :=
  (List.insertionSort (fun a b => a.matchNumber ≤ b.matchNumber)
      (st.filter fun f => f.round = c.round + 1 && openSlot f)).head?

/-- Slot filling of `progressWinnerToNextRound`: `participant1` if unset,
else `participant2` if unset. -/
def fillSlot (w : Ident) (f : Fixture) : Fixture :=
  if f.participant1.isNone then { f with participant1 := some w }
  else if f.participant2.isNone then { f with participant2 := some w }
  else f

/-- Write one updated document back into the collection (Mongo updates the
document with the matching `_id`). -/
def updateFixtureInStore (st : List Fixture) (f' : Fixture) : List Fixture :=
  st.map fun g => if g.id = f'.id then f' else g

/-- `progressWinnerToNextRound(completedFixture)`: locate the earliest
next-round fixture with an unfilled slot, fill its first unset slot with the
completed fixture's winner, and `save()` it.  The call site guards on
`fixture.winner`, and any error thrown by `save()` (for example the
duplicate-participant pre-save rejection) is caught and logged, leaving the
store unchanged. -/
def progressWinnerToNextRound (st : List Fixture) (c : Fixture) : List Fixture :=
  match c.winner with
  | none => st
  | some w =>
    match nextOpenFixture st c with
    | none => st
    | some nf =>
      match fixtureSave false (fillSlot w nf) with
      | some nf' => updateFixtureInStore st nf'
      | none => st

/-! ## Round-robin standings (tournamentController.js, lines 260-339) -/

/-- A row of the standings table (`winPercentage`, a floating-point display
field unused by the sort comparator, is omitted). -/
structure StandingRow where
  participant : Ident
  position : Nat
  matchesPlayed : Nat
  wins : Nat
  losses : Nat
  draws : Nat
  points : Nat
  goalsFor : Nat
  goalsAgainst : Nat
  goalDifference : Int
  deriving DecidableEq, Repr

/-- The zeroed row built for each registration by `registrations.map`. -/
def initRow (p : Ident) : StandingRow :=
  { participant := p, position := 0, matchesPlayed := 0, wins := 0, losses := 0,
    draws := 0, points := 0, goalsFor := 0, goalsAgainst := 0, goalDifference := 0 }

/-- One side's per-fixture accumulation: `gf`/`ga` are this participant's
goals for and against in the fixture.  Win = 3 points, draw = 1, loss = 0,
exactly the branch structure of lines 289-313. -/
def scoreUpdate (row : StandingRow) (gf ga : Nat) : StandingRow :=
  { row with
    matchesPlayed := row.matchesPlayed + 1
    goalsFor := row.goalsFor + gf
    goalsAgainst := row.goalsAgainst + ga
    wins := row.wins + (if gf > ga then 1 else 0)
    losses := row.losses + (if ga > gf then 1 else 0)
    draws := row.draws + (if gf = ga then 1 else 0)
    points := row.points + (if gf > ga then 3 else if gf = ga then 1 else 0) }

/-- In-place update of the element at index `i` (the source mutates
`standings[participantIndex]`). -/
def modifyIdx {α : Type} : List α → Nat → (α → α) → List α
  | [], _, _ => []
  | x :: xs, 0, g => g x :: xs
  | x :: xs, Nat.succ i, g => x :: modifyIdx xs i g

/-- The body of `fixtures.forEach` (lines 276-316): only fixtures with
status `Completed` and a result count, and only when `findIndex` locates
both participants among the standing rows; then both rows are updated
through `scoreUpdate`. -/
def applyCompletedFixture (rows : List StandingRow) (f : Fixture) : List StandingRow :=
  if f.status = FxStatus.Completed then
    match f.result, f.participant1, f.participant2 with
    | some r, some p1, some p2 =>
      match rows.findIdx? (fun s => s.participant = p1),
            rows.findIdx? (fun s => s.participant = p2) with
      | some i1, some i2 =>
        modifyIdx
          (modifyIdx rows i1 fun row =>
            scoreUpdate row r.participant1Score r.participant2Score)
          i2 (fun row => scoreUpdate row r.participant2Score r.participant1Score)
      | _, _ => rows
    | _, _, _ => rows
  else rows

/-- The post-accumulation pass (lines 319-324): goal difference is
`goalsFor - goalsAgainst` over the integers. -/
def setGoalDifference (row : StandingRow) : StandingRow :=
  { row with goalDifference := (row.goalsFor : Int) - (row.goalsAgainst : Int) }

/-- The sort comparator of lines 327-331, as an `Ordering` (`lt` means the
first row sorts strictly earlier): descending points, then descending goal
difference, then descending goals-for. -/
def standingsOrd (a b : StandingRow) : Ordering :=
  if a.points ≠ b.points then (if b.points < a.points then Ordering.lt else Ordering.gt)
  else if a.goalDifference ≠ b.goalDifference then
    (if b.goalDifference < a.goalDifference then Ordering.lt else Ordering.gt)
  else if b.goalsFor < a.goalsFor then Ordering.lt
  else if a.goalsFor < b.goalsFor then Ordering.gt
  else Ordering.eq

/-- The relation a stable JavaScript `Array.prototype.sort` realises: a
strict weak comparator refined by the elements' original positions.
Sorting index-tagged rows by this linear order is exactly stable sorting by
`standingsOrd`. -/
def stableLE (x y : Nat × StandingRow) : Prop :=
  standingsOrd x.2 y.2 = Ordering.lt ∨ (standingsOrd x.2 y.2 = Ordering.eq ∧ x.1 ≤ y.1)

instance : DecidableRel stableLE := fun x y => by
  unfold stableLE; infer_instance

/-- `standings.sort(comparator)` — JavaScript's sort is stable (ES2019), so
it is modelled as sorting the index-tagged list by `stableLE`. -/
def stableSortRows (rows : List StandingRow) : List StandingRow :=
  (List.insertionSort stableLE rows.enum).map Prod.snd

/-- The final pass of lines 334-336: `position := index + 1` in sorted
order. -/
def assignPositions (rows : List StandingRow) : List StandingRow :=
  rows.enum.map fun kr => { kr.2 with position := kr.1 + 1 }

/-- `calculateRoundRobinStandings(registrations, fixtures)`
(`src/server/controllers/tournamentController.js`, lines 260-339). -/
def calculateRoundRobinStandings (registrations : List Ident) (fixtures : List Fixture) :
    List StandingRow :=
  let start := registrations.map initRow
  let acc := fixtures.foldl applyCompletedFixture start
  assignPositions (stableSortRows (acc.map setGoalDifference))

/-! ## Registration capacity (src/unnamed/part_007) -/

/-- Status enum of the `Registration` model; new registrations default to
`Pending`. -/
inductive RegStatus
  | Pending
  | Approved
  | Rejected
  deriving DecidableEq, Repr

/-- Tournament status enum (`src/unnamed/part_004`, lines 181-185). -/
inductive TournStatus
  | Draft
  | Open
  | Full
  | InProgress
  | Completed
  deriving DecidableEq, Repr

/-- The slice of state the registration routes read and write: the
tournament's registrations (captain id, status), its occupancy counter, its
capacity and its status. -/
structure RegState where
  regs : List (Ident × RegStatus)
  currentParticipants : Nat
  maxParticipants : Nat
  tstatus : TournStatus
  deriving DecidableEq, Repr

/-- `countDocuments({status: {$in: ['Pending', 'Approved']}})`. -/
def pendingApprovedCount (regs : List (Ident × RegStatus)) : Nat :=
  regs.countP fun r => r.2 = RegStatus.Pending || r.2 = RegStatus.Approved

/-- `countDocuments({status: 'Approved'})`. -/
def approvedCount (regs : List (Ident × RegStatus)) : Nat :=
  regs.countP fun r => r.2 = RegStatus.Approved

/-- `POST /individual` and `POST /team` (`src/unnamed/part_007`, lines
47-159 and 162-305; both share the capacity logic of lines 91-134): reject
unless the tournament is `Open`, reject when the pending-or-approved count
has reached capacity, reject a duplicate captain; otherwise insert a
`Pending` registration and set `currentParticipants := count + 1` and
`status := Full` exactly when `count + 1 >= maxParticipants`, else `Open`.
A rejected request leaves the state untouched.  (The registration-deadline
check is wall-clock time, outside this model.) -/
def registerParticipant (s : RegState) (captain : Ident) : RegState :=
  if s.tstatus ≠ TournStatus.Open then s
  else
    let current := pendingApprovedCount s.regs
    if s.maxParticipants ≤ current then s
    else if s.regs.any fun r => r.1 = captain then s
    else
      { s with
        regs := s.regs ++ [(captain, RegStatus.Pending)]
        currentParticipants := current + 1
        tstatus :=
          if s.maxParticipants ≤ current + 1 then TournStatus.Full else TournStatus.Open }

/-- `PUT /:registrationId/status` (`src/unnamed/part_007`, lines 405-465):
set the registration's status with no capacity check, then recompute
`currentParticipants` as the approved count and set the tournament status to
`Full` exactly when that count has reached capacity, else `Open`. -/
def setRegistrationStatus (s : RegState) (rid : Ident) (newStatus : RegStatus) : RegState :=
  if s.regs.any fun r => r.1 = rid then
    let regs' := s.regs.map fun r => if r.1 = rid then (r.1, newStatus) else r
    let appr := approvedCount regs'
    { s with
      regs := regs'
      currentParticipants := appr
      tstatus := if s.maxParticipants ≤ appr then TournStatus.Full else TournStatus.Open }
  else s

/-- A registration-lifecycle event of the claims' scope: a registration
request or an admin status update. -/
inductive RegEvent
  | register (captain : Ident)
  | setStatus (rid : Ident) (newStatus : RegStatus)
  deriving DecidableEq, Repr

/-- Apply one registration event. -/
def applyRegEvent (s : RegState) : RegEvent → RegState
  | RegEvent.register captain => registerParticipant s captain
  | RegEvent.setStatus rid st => setRegistrationStatus s rid st

/-- Apply a sequence of registration events. -/
def runRegEvents (s : RegState) (es : List RegEvent) : RegState :=
  es.foldl applyRegEvent s

/-! ## Fixture creation and the persisted-store operations -/

/-- Error kinds of manual fixture creation. -/
inductive CreateError
  | duplicateParticipantSlot
  deriving DecidableEq, Repr

/-- The duplicate-team guard of `POST /` (`src/server/routes/fixtures.js`,
lines 59-62): a request naming the same participant for both slots is
answered with a 400 before any database write; otherwise the document is
built from the request body. -/
def createFixtureRoute (home away : Ident) (mk : Ident → Ident → GenFixture) :
    Except CreateError GenFixture :=
  if home = away then Except.error CreateError.duplicateParticipantSlot
  else Except.ok (mk home away)

/-- Document creation under the canonical schema: the `required` validation
of `participant1`/`participant2` and the duplicate-participant pre-save hook
both run before the document is stored; `none` means the save was
rejected. -/
def createFixtureDoc (f : Fixture) : Option Fixture :=
  if requiredFieldsOk f && participantsDifferent f then some f else none

/-- The slice of state the controller's `generateFixtures` touches. -/
structure CtrlState where
  fixtures : List Fixture
  tournamentStatus : TournStatus
  deriving DecidableEq, Repr

/-- `generateFixtures` of the controller
(`src/server/controllers/tournamentController.js`, lines 421-504): reject
with fewer than two approved registrations **before** `deleteMany`;
otherwise wipe the fixture set, save each posted fixture document (each save
runs the schema validations) and flip a `Draft` tournament to `Open`.  The
saves run concurrently under `Promise.all`, so the documents that pass
validation are persisted even when some save fails. -/
def generateFixturesCtrl (regs : List (Ident × RegStatus)) (posted : List Fixture)
    (st : CtrlState) : CtrlState × Except GenError Unit :=
  if ((regs.filter fun r => r.2 = RegStatus.Approved).length) < 2 then
    (st, Except.error GenError.insufficientParticipants)
  else
    ({ fixtures := posted.filterMap createFixtureDoc
       tournamentStatus :=
         if st.tournamentStatus = TournStatus.Draft then TournStatus.Open
         else st.tournamentStatus },
     Except.ok ())

/-- The operations that create or update canonical fixture documents. -/
inductive StoreOp
  | generate (regs : List (Ident × RegStatus)) (posted : List Fixture)
  | create (f : Fixture)
  | record (fid : Ident) (r : MatchResult) (reqStatus : Option FxStatus)
  | progress (c : Fixture)

/-- Apply one store operation to the tournament's fixture collection. -/
def applyStoreOp (st : List Fixture) : StoreOp → List Fixture
  | StoreOp.generate regs posted =>
    (generateFixturesCtrl regs posted { fixtures := st, tournamentStatus := TournStatus.Open }).1.fixtures
  | StoreOp.create f =>
    match createFixtureDoc f with
    | some f' => st ++ [f']
    | none => st
  | StoreOp.record fid r reqStatus =>
    match st.find? fun g => g.id = fid with
    | some f =>
      match updateFixtureResult f r reqStatus with
      | some f' => updateFixtureInStore st f'
      | none => st
    | none => st
  | StoreOp.progress c => progressWinnerToNextRound st c

/-- Apply a sequence of store operations. -/
def runStoreOps (st : List Fixture) (ops : List StoreOp) : List Fixture :=
  ops.foldl applyStoreOp st

/-! ## Lemmas about the generators -/

theorem ceilLog2Go_eq_clog : ∀ fuel m, m ≤ fuel → ceilLog2Go fuel m = Nat.clog 2 m := by
  intro fuel
  induction fuel with
  | zero =>
    intro m hm
    have hm0 : m = 0 := Nat.le_zero.mp hm
    subst hm0
    simp [ceilLog2Go, Nat.clog_of_right_le_one]
  | succ n ih =>
    intro m hm
    by_cases h1 : m ≤ 1
    · simp [ceilLog2Go, h1, Nat.clog_of_right_le_one h1]
    · have h2 : 2 ≤ m := by omega
      have hrec : (m + 1) / 2 ≤ n := by omega
      simp only [ceilLog2Go, if_neg h1]
      rw [ih _ hrec, Nat.clog_of_two_le (by omega) h2]
      norm_num

theorem ceilLog2_eq_clog (n : Nat) : ceilLog2 n = Nat.clog 2 n :=
  ceilLog2Go_eq_clog n n le_rfl

theorem firstRoundPairs_length {α : Type} : ∀ l : List α,
    (firstRoundPairs l).length = l.length / 2
  | [] => by simp [firstRoundPairs]
  | [_] => by simp [firstRoundPairs]
  | _ :: _ :: ts => by
    simp only [firstRoundPairs, List.length_cons, firstRoundPairs_length ts]
    omega

theorem firstRoundPairs_getElem? {α : Type} : ∀ (l : List α) (k : Nat) (a b : α),
    l[2 * k]? = some a → l[2 * k + 1]? = some b → (firstRoundPairs l)[k]? = some (a, b)
  | [], k, a, b => by simp
  | [x], k, a, b => by
    intro h1 h2
    rcases k with _ | k <;> simp_all
  | x :: y :: ts, 0, a, b => by
    intro h1 h2
    simp only [Nat.mul_zero, List.getElem?_cons_zero, Nat.zero_add,
      List.getElem?_cons_succ] at h1 h2
    simp [firstRoundPairs, h1.symm, ← h2]
    simp_all
  | x :: y :: ts, k + 1, a, b => by
    intro h1 h2
    have e1 : 2 * (k + 1) = 2 * k + 1 + 1 := by omega
    rw [e1, List.getElem?_cons_succ, List.getElem?_cons_succ] at h1
    have e2 : 2 * (k + 1) + 1 = 2 * k + 1 + 1 + 1 := by omega
    rw [e2, List.getElem?_cons_succ, List.getElem?_cons_succ] at h2
    simpa [firstRoundPairs] using firstRoundPairs_getElem? ts k a b h1 h2

theorem leaguePairs_length {α : Type} : ∀ l : List α,
    2 * (leaguePairs l).length = l.length * (l.length - 1)
  | [] => rfl
  | t :: ts => by
    have ih := leaguePairs_length ts
    simp only [leaguePairs, List.length_append, List.length_map, List.length_cons,
      Nat.add_sub_cancel]
    by_cases h0 : ts.length = 0
    · rw [h0] at ih ⊢
      omega
    · obtain ⟨m, hm⟩ := Nat.exists_eq_succ_of_ne_zero h0
      rw [hm] at ih ⊢
      simp only [Nat.succ_sub_one] at ih ⊢
      nlinarith [ih]

theorem mem_leaguePairs {α : Type} : ∀ (l : List α) (pr : α × α),
    pr ∈ leaguePairs l → pr.1 ∈ l ∧ pr.2 ∈ l
  | [], pr => by simp [leaguePairs]
  | t :: ts, pr => by
    intro h
    simp only [leaguePairs, List.mem_append, List.mem_map] at h
    rcases h with ⟨u, hu, rfl⟩ | h
    · exact ⟨by simp, by simp [hu]⟩
    · have hm := mem_leaguePairs ts pr h
      exact ⟨List.mem_cons_of_mem _ hm.1, List.mem_cons_of_mem _ hm.2⟩

theorem countP_enumFrom {α : Type} (p : α → Bool) : ∀ (n : Nat) (l : List α),
    ((l.enumFrom n).countP fun kp => p kp.2) = l.countP p
  | _, [] => rfl
  | n, x :: xs => by
    show (((n, x) :: xs.enumFrom (n + 1)).countP fun kp => p kp.2) = _
    simp [List.countP_cons, countP_enumFrom p (n + 1) xs]

theorem countP_decide_eq_one (ts : List Ident) (b : Ident) (hnd : ts.Nodup) (hb : b ∈ ts) :
    (ts.countP fun u => decide (u = b)) = 1 := by
  have he : (fun u : Ident => decide (u = b)) = fun u : Ident => u == b := by
    funext u
    by_cases h : u = b <;> simp [h]
  rw [he]
  exact List.count_eq_one_of_mem hnd hb

theorem countP_leaguePairs_eq_one : ∀ (l : List Ident), l.Nodup → ∀ a b : Ident,
    a ∈ l → b ∈ l → a ≠ b →
    ((leaguePairs l).countP fun pr =>
      decide ((pr.1 = a ∧ pr.2 = b) ∨ (pr.1 = b ∧ pr.2 = a))) = 1
  | [], _, a, _, ha, _, _ => absurd ha (by simp)
  | t :: ts, hnd, a, b, ha, hb, hab => by
    rw [List.nodup_cons] at hnd
    obtain ⟨htn, hts⟩ := hnd
    simp only [leaguePairs, List.countP_append, List.countP_map]
    by_cases hta : t = a
    · subst hta
      have hb' : b ∈ ts := by
        rcases List.mem_cons.mp hb with h | h
        · exact absurd h.symm hab
        · exact h
      have hmap : (ts.countP
          ((fun pr : Ident × Ident =>
            decide ((pr.1 = t ∧ pr.2 = b) ∨ (pr.1 = b ∧ pr.2 = t))) ∘ fun u => (t, u))) =
          (ts.countP fun u => decide (u = b)) := by
        apply List.countP_congr
        intro u _
        simp [hab]
      have hrest : ((leaguePairs ts).countP fun pr =>
          decide ((pr.1 = t ∧ pr.2 = b) ∨ (pr.1 = b ∧ pr.2 = t))) = 0 := by
        apply List.countP_eq_zero.mpr
        intro pr hpr
        have hm := mem_leaguePairs ts pr hpr
        simp only [decide_eq_true_eq]
        rintro (⟨h1, _⟩ | ⟨_, h2⟩)
        · exact htn (h1 ▸ hm.1)
        · exact htn (h2 ▸ hm.2)
      rw [hmap, hrest, countP_decide_eq_one ts b hts hb']
    · by_cases htb : t = b
      · subst htb
        have ha' : a ∈ ts := by
          rcases List.mem_cons.mp ha with h | h
          · exact absurd h.symm hta
          · exact h
        have hmap : (ts.countP
            ((fun pr : Ident × Ident =>
              decide ((pr.1 = a ∧ pr.2 = t) ∨ (pr.1 = t ∧ pr.2 = a))) ∘ fun u => (t, u))) =
            (ts.countP fun u => decide (u = a)) := by
          apply List.countP_congr
          intro u _
          simp [hta]
        have hrest : ((leaguePairs ts).countP fun pr =>
            decide ((pr.1 = a ∧ pr.2 = t) ∨ (pr.1 = t ∧ pr.2 = a))) = 0 := by
          apply List.countP_eq_zero.mpr
          intro pr hpr
          have hm := mem_leaguePairs ts pr hpr
          simp only [decide_eq_true_eq]
          rintro (⟨_, h2⟩ | ⟨h1, _⟩)
          · exact htn (h2 ▸ hm.2)
          · exact htn (h1 ▸ hm.1)
        rw [hmap, hrest, countP_decide_eq_one ts a hts ha']
      · have ha' : a ∈ ts := by
          rcases List.mem_cons.mp ha with h | h
          · exact absurd h.symm hta
          · exact h
        have hb' : b ∈ ts := by
          rcases List.mem_cons.mp hb with h | h
          · exact absurd h.symm htb
          · exact h
        have hmap : (ts.countP
            ((fun pr : Ident × Ident =>
              decide ((pr.1 = a ∧ pr.2 = b) ∨ (pr.1 = b ∧ pr.2 = a))) ∘ fun u => (t, u))) = 0 := by
          apply List.countP_eq_zero.mpr
          intro u _
          simp [hta, htb]
        rw [hmap, countP_leaguePairs_eq_one ts hts a b ha' hb' hab]

/-! ## Claim C1 -/

/-- C1 (counterexample): for five confirmed teams the single-elimination
generator emits exactly the two concrete first-round pairings and nothing
else — no bye fixture carrying the fifth team, no auto-completed match and
no later-round placeholder, whereas the claim requires a bye for
participant 5 and placeholder shells for rounds 2 and 3. -/
theorem generateKnockout_five_no_bye :
    generateKnockoutFixtures [1, 2, 3, 4, 5] =
      [{ round := "Round 1", matchNumber := 1, homeTeam := 1, awayTeam := 2, dayOffset := 0 },
       { round := "Round 1", matchNumber := 2, homeTeam := 3, awayTeam := 4, dayOffset := 0 }] := by
  decide

/-- C1 (amended): single-elimination generation computes
`rounds = ⌈log₂ n⌉` (used only for the round label) and pairs the
participants in input order two at a time into `⌊n / 2⌋` first-round
matches numbered from 1; an excess participant when `n` is odd receives no
match (no bye is created), and every generated fixture belongs to the same
first round (no later-round placeholders, no forward/backward links). -/
theorem generateKnockout_first_round_only (teams : List Ident) (k : Nat) (a b : Ident)
    (h2k : teams[2 * k]? = some a) (h2k1 : teams[2 * k + 1]? = some b) :
    (generateKnockoutFixtures teams).length = teams.length / 2 ∧
    (generateKnockoutFixtures teams)[k]? =
      some { round := knockoutRoundName 1 (Nat.clog 2 teams.length), matchNumber := k + 1,
             homeTeam := a, awayTeam := b, dayOffset := 0 } ∧
    ∀ gf ∈ generateKnockoutFixtures teams,
      gf.round = knockoutRoundName 1 (Nat.clog 2 teams.length) ∧ gf.dayOffset = 0 := by
  refine ⟨?_, ?_, ?_⟩
  · simp [generateKnockoutFixtures, List.enum_length, firstRoundPairs_length]
  · have hp := firstRoundPairs_getElem? teams k a b h2k h2k1
    simp [generateKnockoutFixtures, List.getElem?_map, List.getElem?_enum, hp,
      knockoutRounds, ceilLog2_eq_clog]
  · intro gf hgf
    simp only [generateKnockoutFixtures, List.mem_map] at hgf
    obtain ⟨⟨i, pr⟩, _, rfl⟩ := hgf
    simp [knockoutRounds, ceilLog2_eq_clog]

/-- C1 witness: the amended pairing statement instantiated on five teams. -/
theorem generateKnockout_first_round_only_witness :
    ([10, 20, 30, 40, 50] : List Ident)[2 * 1]? = some 30 ∧
    ([10, 20, 30, 40, 50] : List Ident)[2 * 1 + 1]? = some 40 ∧
    ((generateKnockoutFixtures [10, 20, 30, 40, 50]).length = 5 / 2 ∧
      (generateKnockoutFixtures [10, 20, 30, 40, 50])[1]? =
        some { round := knockoutRoundName 1 (Nat.clog 2 5), matchNumber := 2,
               homeTeam := 30, awayTeam := 40, dayOffset := 0 } ∧
      ∀ gf ∈ generateKnockoutFixtures [10, 20, 30, 40, 50],
        gf.round = knockoutRoundName 1 (Nat.clog 2 5) ∧ gf.dayOffset = 0) :=
  ⟨by decide, by decide,
    generateKnockout_first_round_only [10, 20, 30, 40, 50] 1 30 40 (by decide) (by decide)⟩

/-! ## Claim C5 -/

/-- C5: round-robin generation over `n` distinct participants produces
exactly `n * (n - 1) / 2` matches, and every unordered pair of distinct
participants appears in exactly one of them. -/
theorem roundRobin_complete (teams : List Ident) (hnd : teams.Nodup) :
    (generateLeagueFixtures teams).length = teams.length * (teams.length - 1) / 2 ∧
    ∀ a b : Ident, a ∈ teams → b ∈ teams → a ≠ b →
      ((generateLeagueFixtures teams).countP fun gf =>
        decide ((gf.homeTeam = a ∧ gf.awayTeam = b) ∨ (gf.homeTeam = b ∧ gf.awayTeam = a))) = 1 := by
  constructor
  · have hl := leaguePairs_length teams
    have hg : (generateLeagueFixtures teams).length = (leaguePairs teams).length := by
      simp [generateLeagueFixtures, List.enum_length]
    omega
  · intro a b ha hb hab
    have key := countP_leaguePairs_eq_one teams hnd a b ha hb hab
    calc ((generateLeagueFixtures teams).countP fun gf =>
        decide ((gf.homeTeam = a ∧ gf.awayTeam = b) ∨ (gf.homeTeam = b ∧ gf.awayTeam = a)))
        = (((leaguePairs teams).enum).countP fun kp =>
            decide ((kp.2.1 = a ∧ kp.2.2 = b) ∨ (kp.2.1 = b ∧ kp.2.2 = a))) := by
          rw [generateLeagueFixtures, List.countP_map]
          rfl
      _ = 1 := by
          rw [List.enum]
          exact (countP_enumFrom
            (fun pr => decide ((pr.1 = a ∧ pr.2 = b) ∨ (pr.1 = b ∧ pr.2 = a))) 0
            (leaguePairs teams)).trans key

/-- C5 witness: four distinct participants yield six matches and the pair
(2, 4) appears exactly once. -/
theorem roundRobin_complete_witness :
    ([1, 2, 3, 4] : List Ident).Nodup ∧
    ((generateLeagueFixtures [1, 2, 3, 4]).length = 4 * (4 - 1) / 2 ∧
      ∀ a b : Ident, a ∈ ([1, 2, 3, 4] : List Ident) → b ∈ ([1, 2, 3, 4] : List Ident) →
        a ≠ b →
        ((generateLeagueFixtures [1, 2, 3, 4]).countP fun gf =>
          decide ((gf.homeTeam = a ∧ gf.awayTeam = b) ∨ (gf.homeTeam = b ∧ gf.awayTeam = a))) = 1) :=
  ⟨by decide, roundRobin_complete [1, 2, 3, 4] (by decide)⟩

/-! ## Claim C8 -/

/-- C8: with fewer than two eligible participants (confirmed teams for the
router's generator, approved registrations for the controller's), both
generation entry points answer `InsufficientParticipants` and the guard
runs before `deleteMany`: the existing fixture set and the tournament
status are returned unchanged. -/
theorem generate_insufficient_participants_no_mutation
    (format : GenFormat) (teams : List Team) (st : GenState)
    (regs : List (Ident × RegStatus)) (posted : List Fixture) (cst : CtrlState)
    (hteams : ((teams.filter fun t => t.status = TeamStatus.confirmed).length) < 2)
    (hregs : ((regs.filter fun r => r.2 = RegStatus.Approved).length) < 2) :
    generateEndpoint format teams st = (st, Except.error GenError.insufficientParticipants) ∧
    generateFixturesCtrl regs posted cst =
      (cst, Except.error GenError.insufficientParticipants) := by
  constructor
  · simp [generateEndpoint, hteams]
  · simp [generateFixturesCtrl, hregs]

/-- C8 witness: one confirmed team and one approved registration are too
few; the states come back untouched. -/
theorem generate_insufficient_participants_no_mutation_witness :
    ((([⟨7, TeamStatus.confirmed⟩, ⟨8, TeamStatus.withdrawn⟩] : List Team).filter
        fun t => t.status = TeamStatus.confirmed).length) < 2 ∧
    ((([(5, RegStatus.Approved), (6, RegStatus.Pending)] :
        List (Ident × RegStatus)).filter fun r => r.2 = RegStatus.Approved).length) < 2 ∧
    (generateEndpoint GenFormat.knockout [⟨7, TeamStatus.confirmed⟩, ⟨8, TeamStatus.withdrawn⟩]
        { fixtures := [], tournamentStatus := "Open" } =
      ({ fixtures := [], tournamentStatus := "Open" },
        Except.error GenError.insufficientParticipants) ∧
      generateFixturesCtrl [(5, RegStatus.Approved), (6, RegStatus.Pending)] []
          { fixtures := [], tournamentStatus := TournStatus.Open } =
        ({ fixtures := [], tournamentStatus := TournStatus.Open },
          Except.error GenError.insufficientParticipants)) :=
  ⟨by decide, by decide,
    generate_insufficient_participants_no_mutation GenFormat.knockout
      [⟨7, TeamStatus.confirmed⟩, ⟨8, TeamStatus.withdrawn⟩]
      { fixtures := [], tournamentStatus := "Open" }
      [(5, RegStatus.Approved), (6, RegStatus.Pending)] []
      { fixtures := [], tournamentStatus := TournStatus.Open } (by decide) (by decide)⟩


/-! ## Fixture middleware lemmas -/

theorem applyResultHook_slots (f : Fixture) :
    (applyResultHook f).participant1 = f.participant1 ∧
    (applyResultHook f).participant2 = f.participant2 := by
  unfold applyResultHook
  cases f.result with
  | none => exact ⟨rfl, rfl⟩
  | some r => dsimp only; split_ifs <;> simp

theorem fixtureSave_spec (rm : Bool) (f f' : Fixture) (h : fixtureSave rm f = some f') :
    f'.participant1 = f.participant1 ∧ f'.participant2 = f.participant2 ∧
    participantsDifferent f' = true := by
  unfold fixtureSave at h
  set f1 := if rm then applyResultHook f else f with hf1
  have hs : f1.participant1 = f.participant1 ∧ f1.participant2 = f.participant2 := by
    rw [hf1]
    split
    · exact applyResultHook_slots f
    · exact ⟨rfl, rfl⟩
  by_cases hd : requiredFieldsOk f1 && participantsDifferent f1
  · rw [if_pos hd] at h
    have hf' : f' = f1 := (Option.some.inj h).symm
    subst hf'
    simp only [Bool.and_eq_true] at hd
    exact ⟨hs.1, hs.2, hd.2⟩
  · rw [if_neg hd] at h
    exact absurd h (by simp)

theorem fixtureSave_false (f f' : Fixture) (h : fixtureSave false f = some f') :
    f' = f ∧ requiredFieldsOk f = true ∧ participantsDifferent f = true := by
  unfold fixtureSave at h
  simp only [Bool.false_eq_true, if_false] at h
  by_cases hd : requiredFieldsOk f && participantsDifferent f
  · rw [if_pos hd] at h
    simp only [Bool.and_eq_true] at hd
    exact ⟨(Option.some.inj h).symm, hd.1, hd.2⟩
  · rw [if_neg hd] at h
    exact absurd h (by simp)

theorem createFixtureDoc_spec (f f' : Fixture) (h : createFixtureDoc f = some f') :
    f' = f ∧ requiredFieldsOk f = true ∧ participantsDifferent f = true := by
  unfold createFixtureDoc at h
  by_cases hc : requiredFieldsOk f && participantsDifferent f
  · rw [if_pos hc] at h
    have hf' : f' = f := (Option.some.inj h).symm
    simp only [Bool.and_eq_true] at hc
    exact ⟨hf', hc.1, hc.2⟩
  · rw [if_neg hc] at h
    exact absurd h (by simp)

theorem nodup_pair_ne {α : Type} : ∀ (l : List α), l.Nodup →
    ∀ pr ∈ leaguePairs l, pr.1 ≠ pr.2
  | [], _, pr, hm => absurd hm (by simp [leaguePairs])
  | t :: ts, hnd, pr, hm => by
    rw [List.nodup_cons] at hnd
    simp only [leaguePairs, List.mem_append, List.mem_map] at hm
    rcases hm with ⟨u, hu, rfl⟩ | hm
    · intro h
      have h' : t = u := h
      exact hnd.1 (h' ▸ hu)
    · exact nodup_pair_ne ts hnd.2 pr hm

theorem nodup_firstRoundPairs_ne {α : Type} : ∀ (l : List α), l.Nodup →
    ∀ pr ∈ firstRoundPairs l, pr.1 ≠ pr.2
  | [], _, pr, hm => absurd hm (by simp [firstRoundPairs])
  | [_], _, pr, hm => absurd hm (by simp [firstRoundPairs])
  | x :: y :: ts, hnd, pr, hm => by
    rw [List.nodup_cons] at hnd
    rcases List.mem_cons.mp hm with rfl | hm'
    · intro h
      have h' : x = y := h
      apply hnd.1
      rw [h']
      exact List.mem_cons_self y ts
    · have hnd2 : ts.Nodup := (List.nodup_cons.mp hnd.2).2
      exact nodup_firstRoundPairs_ne ts hnd2 pr hm'

theorem progress_preserves_different (st : List Fixture) (c : Fixture)
    (hst : ∀ f ∈ st, participantsDifferent f = true) :
    ∀ f ∈ progressWinnerToNextRound st c, participantsDifferent f = true := by
  intro f hf
  unfold progressWinnerToNextRound at hf
  rcases hw : c.winner with _ | w
  · simp only [hw] at hf
    exact hst f hf
  · simp only [hw] at hf
    rcases hn : nextOpenFixture st c with _ | nf
    · simp only [hn] at hf
      exact hst f hf
    · simp only [hn] at hf
      rcases hs : fixtureSave false (fillSlot w nf) with _ | nf'
      · simp only [hs] at hf
        exact hst f hf
      · simp only [hs] at hf
        simp only [updateFixtureInStore, List.mem_map] at hf
        obtain ⟨g, hg, rfl⟩ := hf
        by_cases hid : g.id = nf'.id
        · rw [if_pos hid]
          exact (fixtureSave_spec false _ _ hs).2.2
        · rw [if_neg hid]
          exact hst g hg

theorem mem_updateFixtureInStore (st : List Fixture) (f' : Fixture) :
    ∀ g ∈ updateFixtureInStore st f', g = f' ∨ g ∈ st := by
  intro g hg
  simp only [updateFixtureInStore, List.mem_map] at hg
  obtain ⟨x, hx, rfl⟩ := hg
  by_cases h : x.id = f'.id
  · rw [if_pos h]
    exact Or.inl rfl
  · rw [if_neg h]
    exact Or.inr hx

theorem nextOpenFixture_spec (st : List Fixture) (c nf : Fixture)
    (h : nextOpenFixture st c = some nf) :
    nf ∈ st ∧ nf.round = c.round + 1 ∧ openSlot nf = true := by
  unfold nextOpenFixture at h
  have hmem : nf ∈ List.insertionSort (fun a b => a.matchNumber ≤ b.matchNumber)
      (st.filter fun f => f.round = c.round + 1 && openSlot f) :=
    List.mem_of_mem_head? (by simp [h])
  rw [List.mem_insertionSort] at hmem
  have h1 := List.mem_of_mem_filter hmem
  have h2 := List.of_mem_filter hmem
  simp only [Bool.and_eq_true, decide_eq_true_eq] at h2
  exact ⟨h1, h2.1, h2.2⟩

theorem progress_noop_on_required (st : List Fixture) (c : Fixture)
    (hst : ∀ f ∈ st, requiredFieldsOk f = true) :
    progressWinnerToNextRound st c = st := by
  unfold progressWinnerToNextRound
  rcases hw : c.winner with _ | w
  · rfl
  · rcases hn : nextOpenFixture st c with _ | nf
    · rfl
    · exfalso
      obtain ⟨hmem, _, hopen⟩ := nextOpenFixture_spec st c nf hn
      have hreq := hst nf hmem
      simp only [requiredFieldsOk, Bool.and_eq_true, Option.isSome_iff_exists] at hreq
      simp only [openSlot, Bool.or_eq_true, Option.isNone_iff_eq_none] at hopen
      obtain ⟨⟨x, hx⟩, ⟨y, hy⟩⟩ := hreq
      rcases hopen with h | h <;> simp_all

theorem applyStoreOp_preserves_different (st : List Fixture) (op : StoreOp)
    (hst : ∀ f ∈ st, participantsDifferent f = true) :
    ∀ f ∈ applyStoreOp st op, participantsDifferent f = true := by
  cases op with
  | generate regs posted =>
    intro f hf
    simp only [applyStoreOp, generateFixturesCtrl] at hf
    split_ifs at hf
    · exact hst f hf
    all_goals
      dsimp only at hf
      simp only [List.mem_filterMap] at hf
      obtain ⟨x, _, hx⟩ := hf
      obtain ⟨rfl, _, hd⟩ := createFixtureDoc_spec x f hx
      exact hd
  | create f0 =>
    intro f hf
    simp only [applyStoreOp] at hf
    rcases hc : createFixtureDoc f0 with _ | f1
    · simp only [hc] at hf
      exact hst f hf
    · simp only [hc, List.mem_append, List.mem_singleton] at hf
      rcases hf with hf | rfl
      · exact hst f hf
      · obtain ⟨rfl, _, hd⟩ := createFixtureDoc_spec f0 f hc
        exact hd
  | record fid r reqStatus =>
    intro f hf
    simp only [applyStoreOp] at hf
    rcases hfind : st.find? (fun g => g.id = fid) with _ | g
    · simp only [hfind] at hf
      exact hst f hf
    · simp only [hfind] at hf
      rcases hup : updateFixtureResult g r reqStatus with _ | g'
      · simp only [hup] at hf
        exact hst f hf
      · simp only [hup] at hf
        rcases mem_updateFixtureInStore st g' f hf with rfl | hmem
        · exact (fixtureSave_spec true _ _ hup).2.2
        · exact hst f hmem
  | progress c => exact progress_preserves_different st c hst

theorem applyStoreOp_preserves_required (st : List Fixture) (op : StoreOp)
    (hst : ∀ f ∈ st, requiredFieldsOk f = true) :
    ∀ f ∈ applyStoreOp st op, requiredFieldsOk f = true := by
  cases op with
  | generate regs posted =>
    intro f hf
    simp only [applyStoreOp, generateFixturesCtrl] at hf
    split_ifs at hf
    · exact hst f hf
    all_goals
      dsimp only at hf
      simp only [List.mem_filterMap] at hf
      obtain ⟨x, _, hx⟩ := hf
      obtain ⟨rfl, hr, _⟩ := createFixtureDoc_spec x f hx
      exact hr
  | create f0 =>
    intro f hf
    simp only [applyStoreOp] at hf
    rcases hc : createFixtureDoc f0 with _ | f1
    · simp only [hc] at hf
      exact hst f hf
    · simp only [hc, List.mem_append, List.mem_singleton] at hf
      rcases hf with hf | rfl
      · exact hst f hf
      · obtain ⟨rfl, hr, _⟩ := createFixtureDoc_spec f0 f hc
        exact hr
  | record fid r reqStatus =>
    intro f hf
    simp only [applyStoreOp] at hf
    rcases hfind : st.find? (fun g => g.id = fid) with _ | g
    · simp only [hfind] at hf
      exact hst f hf
    · simp only [hfind] at hf
      rcases hup : updateFixtureResult g r reqStatus with _ | g'
      · simp only [hup] at hf
        exact hst f hf
      · simp only [hup] at hf
        rcases mem_updateFixtureInStore st g' f hf with rfl | hmem
        · have hslots := fixtureSave_spec true _ _ hup
          have hg := hst g (List.mem_of_find?_eq_some hfind)
          simp only [requiredFieldsOk] at hg ⊢
          simp only [hslots.1, hslots.2.1]
          simpa [requiredFieldsOk] using hg
        · exact hst f hmem
  | progress c =>
    simp only [applyStoreOp]
    rw [progress_noop_on_required st c hst]
    exact hst

theorem runStoreOps_preserves_different (ops : List StoreOp) : ∀ (st : List Fixture),
    (∀ f ∈ st, participantsDifferent f = true) →
    ∀ f ∈ runStoreOps st ops, participantsDifferent f = true := by
  induction ops with
  | nil => intro st hst; exact hst
  | cons op ops ih =>
    intro st hst
    exact ih (applyStoreOp st op) (applyStoreOp_preserves_different st op hst)

theorem runStoreOps_preserves_required (ops : List StoreOp) : ∀ (st : List Fixture),
    (∀ f ∈ st, requiredFieldsOk f = true) →
    ∀ f ∈ runStoreOps st ops, requiredFieldsOk f = true := by
  induction ops with
  | nil => intro st hst; exact hst
  | cons op ops ih =>
    intro st hst
    exact ih (applyStoreOp st op) (applyStoreOp_preserves_required st op hst)

/-! ## Claim C4 -/

/-- C4: recording a result on a match with both slots occupied derives the
winner as the participant with the strictly higher score; equal scores with
no forfeit flag leave the winner as it was (in particular unset when it was
unset), and the match always transitions to `Completed` whatever status the
request carried. -/
theorem recordResult_winner_derivation (f : Fixture) (r : MatchResult)
    (reqStatus : Option FxStatus) (a b : Ident)
    (h1 : f.participant1 = some a) (h2 : f.participant2 = some b) (hab : a ≠ b)
    (hff : r.forfeit = false) :
    ∃ f', updateFixtureResult f r reqStatus = some f' ∧
      f'.status = FxStatus.Completed ∧
      f'.participant1 = some a ∧ f'.participant2 = some b ∧
      f'.result = some r ∧
      f'.winner = (if r.participant2Score < r.participant1Score then some a
                   else if r.participant1Score < r.participant2Score then some b
                   else f.winner) := by
  simp only [updateFixtureResult, fixtureSave, applyResultHook, deriveWinner, hff,
    Bool.not_false, if_true]
  split_ifs with hw1 hw2 <;>
    simp_all [requiredFieldsOk, participantsDifferent, h1, h2, gt_iff_lt]

/-- C4 witness: a 21-15 result on a scheduled match between participants 4
and 9. -/
theorem recordResult_winner_derivation_witness :
    ({ id := 1, round := 1, matchNumber := 1, participant1 := some 4, participant2 := some 9,
       result := none, status := FxStatus.Scheduled, winner := none } : Fixture).participant1 =
        some 4 ∧
    ({ id := 1, round := 1, matchNumber := 1, participant1 := some 4, participant2 := some 9,
       result := none, status := FxStatus.Scheduled, winner := none } : Fixture).participant2 =
        some 9 ∧
    (4 : Ident) ≠ 9 ∧
    ({ participant1Score := 21, participant2Score := 15, forfeit := false } :
        MatchResult).forfeit = false ∧
    (∃ f', updateFixtureResult
        { id := 1, round := 1, matchNumber := 1, participant1 := some 4, participant2 := some 9,
          result := none, status := FxStatus.Scheduled, winner := none }
        { participant1Score := 21, participant2Score := 15, forfeit := false } none = some f' ∧
      f'.status = FxStatus.Completed ∧
      f'.participant1 = some 4 ∧ f'.participant2 = some 9 ∧
      f'.result = some { participant1Score := 21, participant2Score := 15, forfeit := false } ∧
      f'.winner = (if (15 : Nat) < 21 then some 4
                   else if (21 : Nat) < 15 then some 9
                   else none)) :=
  ⟨rfl, rfl, by decide, rfl,
    recordResult_winner_derivation _ _ none 4 9 rfl rfl (by decide) rfl⟩

/-! ## Claim C9 -/

/-- C9: across generation, creation, result recording and progression, no
stored match ever holds the same participant in both slots: both legacy
generators pair distinct participants, every store operation preserves the
slots-differ invariant, the creation route rejects `home = away` before any
write, and the schema-level save validation refuses a document whose two
slots coincide. -/
theorem duplicate_slot_invariant
    (teams : List Ident) (hnd : teams.Nodup)
    (st : List Fixture) (ops : List StoreOp)
    (hst : ∀ f ∈ st, participantsDifferent f = true)
    (home : Ident) (mk : Ident → Ident → GenFixture) (f0 : Fixture) (p : Ident)
    (hp1 : f0.participant1 = some p) (hp2 : f0.participant2 = some p) :
    (∀ gf ∈ generateLeagueFixtures teams, gf.homeTeam ≠ gf.awayTeam) ∧
    (∀ gf ∈ generateKnockoutFixtures teams, gf.homeTeam ≠ gf.awayTeam) ∧
    (∀ f ∈ runStoreOps st ops, participantsDifferent f = true) ∧
    createFixtureRoute home home mk = Except.error CreateError.duplicateParticipantSlot ∧
    createFixtureDoc f0 = none := by
  refine ⟨?_, ?_, runStoreOps_preserves_different ops st hst, ?_, ?_⟩
  · intro gf hgf
    simp only [generateLeagueFixtures, List.mem_map] at hgf
    obtain ⟨⟨i, pr⟩, hpr, rfl⟩ := hgf
    have hpm : pr ∈ leaguePairs teams := by
      have h2 := List.mem_enumFrom hpr
      rw [h2.2.2]
      exact (leaguePairs teams).getElem_mem _
    exact nodup_pair_ne teams hnd pr hpm
  · intro gf hgf
    simp only [generateKnockoutFixtures, List.mem_map] at hgf
    obtain ⟨⟨i, pr⟩, hpr, rfl⟩ := hgf
    have hpm : pr ∈ firstRoundPairs teams := by
      have h2 := List.mem_enumFrom hpr
      rw [h2.2.2]
      exact (firstRoundPairs teams).getElem_mem _
    exact nodup_firstRoundPairs_ne teams hnd pr hpm
  · simp [createFixtureRoute]
  · simp [createFixtureDoc, requiredFieldsOk, participantsDifferent, hp1, hp2]

/-! ## Claim C10 -/

/-- C10: the schema marks both participant slots `required`, so a fixture
with an unset slot can never be stored: creation rejects it, every store
operation preserves fullness of both slots, and on a store of fully-slotted
fixtures winner progression finds no open slot and is the identity. -/
theorem required_slots_invariant (st : List Fixture) (ops : List StoreOp)
    (hst : ∀ f ∈ st, requiredFieldsOk f = true) (f0 : Fixture)
    (hf0 : requiredFieldsOk f0 = false) :
    (∀ f ∈ runStoreOps st ops, requiredFieldsOk f = true) ∧
    createFixtureDoc f0 = none ∧
    (∀ c, progressWinnerToNextRound st c = st) := by
  refine ⟨runStoreOps_preserves_required ops st hst, ?_,
    fun c => progress_noop_on_required st c hst⟩
  simp [createFixtureDoc, hf0]

/-- C10 witness: a one-fixture store with both slots set, a result
recording operation, and a slotless document that creation rejects. -/
theorem required_slots_invariant_witness :
    (∀ f ∈ ([{ id := 1, round := 1, matchNumber := 1, participant1 := some 4,
               participant2 := some 9, result := none, status := FxStatus.Scheduled,
               winner := none }] : List Fixture), requiredFieldsOk f = true) ∧
    requiredFieldsOk
      { id := 2, round := 2, matchNumber := 1, participant1 := none, participant2 := none,
        result := none, status := FxStatus.Scheduled, winner := none } = false ∧
    ((∀ f ∈ runStoreOps
        [{ id := 1, round := 1, matchNumber := 1, participant1 := some 4,
           participant2 := some 9, result := none, status := FxStatus.Scheduled,
           winner := none }]
        [StoreOp.record 1 { participant1Score := 3, participant2Score := 1, forfeit := false }
          none],
        requiredFieldsOk f = true) ∧
      createFixtureDoc
        { id := 2, round := 2, matchNumber := 1, participant1 := none, participant2 := none,
          result := none, status := FxStatus.Scheduled, winner := none } = none ∧
      (∀ c, progressWinnerToNextRound
        [{ id := 1, round := 1, matchNumber := 1, participant1 := some 4,
           participant2 := some 9, result := none, status := FxStatus.Scheduled,
           winner := none }] c =
        [{ id := 1, round := 1, matchNumber := 1, participant1 := some 4,
           participant2 := some 9, result := none, status := FxStatus.Scheduled,
           winner := none }])) :=
  ⟨by decide, by decide,
    required_slots_invariant _ _ (by decide) _ (by decide)⟩

/-- C9 witness: three distinct teams, one creation operation, a rejected
`home = away` request and a rejected equal-slots document. -/
theorem duplicate_slot_invariant_witness :
    ([3, 7, 11] : List Ident).Nodup ∧
    (∀ f ∈ ([] : List Fixture), participantsDifferent f = true) ∧
    ({ id := 5, round := 1, matchNumber := 1, participant1 := some 7, participant2 := some 7,
       result := none, status := FxStatus.Scheduled, winner := none } : Fixture).participant1 =
      some 7 ∧
    ({ id := 5, round := 1, matchNumber := 1, participant1 := some 7, participant2 := some 7,
       result := none, status := FxStatus.Scheduled, winner := none } : Fixture).participant2 =
      some 7 ∧
    ((∀ gf ∈ generateLeagueFixtures [3, 7, 11], gf.homeTeam ≠ gf.awayTeam) ∧
      (∀ gf ∈ generateKnockoutFixtures [3, 7, 11], gf.homeTeam ≠ gf.awayTeam) ∧
      (∀ f ∈ runStoreOps []
          [StoreOp.create
            { id := 6, round := 1, matchNumber := 1, participant1 := some 3,
              participant2 := some 7, result := none, status := FxStatus.Scheduled,
              winner := none }],
        participantsDifferent f = true) ∧
      createFixtureRoute 12 12
          (fun h a => { round := "League", matchNumber := 1, homeTeam := h, awayTeam := a,
                        dayOffset := 0 }) =
        Except.error CreateError.duplicateParticipantSlot ∧
      createFixtureDoc
        { id := 5, round := 1, matchNumber := 1, participant1 := some 7, participant2 := some 7,
          result := none, status := FxStatus.Scheduled, winner := none } = none) :=
  ⟨by decide, by decide, rfl, rfl,
    duplicate_slot_invariant [3, 7, 11] (by decide) [] _ (by decide) 12 _ _ 7 rfl rfl⟩


/-! ## Claim C2 -/

theorem fillSlot_id (w : Ident) (f : Fixture) : (fillSlot w f).id = f.id := by
  unfold fillSlot
  split_ifs <;> rfl

/-- C2 (amended): for a completed match with a winner, winner progression
targets the first unfilled slot of the downstream match — slot 1 when it is
empty, otherwise slot 2 — but the write persists exactly when the fill
completes the match, that is when the downstream match had exactly one
unfilled slot (and the arriving winner differs from the occupant, else the
duplicate-participant hook rejects the save).  When both slots are empty
the half-filled document fails the schema's required-slot validation, the
caught error leaves every match unchanged; likewise nothing happens when no
next-round match exists (the completed match was the final).  No other
match is ever mutated. -/
theorem progression_fills_first_open_slot
    (st : List Fixture) (c : Fixture) (w : Ident)
    (hw : c.winner = some w) :
    ((∀ f ∈ st, f.round ≠ c.round + 1) → progressWinnerToNextRound st c = st) ∧
    (∀ nf, nextOpenFixture st c = some nf →
      (nf.participant1 = none → nf.participant2 = none →
        progressWinnerToNextRound st c = st) ∧
      (∀ x : Ident, nf.participant1 = none → nf.participant2 = some x → x ≠ w →
        progressWinnerToNextRound st c =
          updateFixtureInStore st { nf with participant1 := some w }) ∧
      (∀ y : Ident, nf.participant1 = some y → nf.participant2 = none → y ≠ w →
        progressWinnerToNextRound st c =
          updateFixtureInStore st { nf with participant2 := some w }) ∧
      (∀ g ∈ st, g.id ≠ nf.id → g ∈ progressWinnerToNextRound st c)) := by
  constructor
  · intro hnone
    have hfil : (st.filter fun f => f.round = c.round + 1 && openSlot f) = [] := by
      apply List.filter_eq_nil_iff.mpr
      intro f hf
      simp only [Bool.and_eq_true, decide_eq_true_eq, not_and]
      intro hr
      exact absurd hr (hnone f hf)
    unfold progressWinnerToNextRound nextOpenFixture
    rw [hw, hfil]
    rfl
  · intro nf hnf
    refine ⟨?_, ?_, ?_, ?_⟩
    · intro hp1 hp2
      have hfs : fillSlot w nf = { nf with participant1 := some w } := by
        simp [fillSlot, hp1]
      have hsave : fixtureSave false (fillSlot w nf) = none := by
        rw [hfs]
        simp [fixtureSave, requiredFieldsOk, hp2]
      unfold progressWinnerToNextRound
      rw [hw, hnf]
      dsimp only
      rw [hsave]
    · intro x hp1 hp2 hxw
      have hfs : fillSlot w nf = { nf with participant1 := some w } := by
        simp [fillSlot, hp1]
      have hsave : fixtureSave false (fillSlot w nf) =
          some { nf with participant1 := some w } := by
        rw [hfs]
        simp [fixtureSave, requiredFieldsOk, participantsDifferent, hp2, Ne.symm hxw]
      unfold progressWinnerToNextRound
      rw [hw, hnf]
      dsimp only
      rw [hsave]
    · intro y hp1 hp2 hyw
      have hfs : fillSlot w nf = { nf with participant2 := some w } := by
        simp [fillSlot, hp1, hp2]
      have hsave : fixtureSave false (fillSlot w nf) =
          some { nf with participant2 := some w } := by
        rw [hfs]
        simp [fixtureSave, requiredFieldsOk, participantsDifferent, hp1, hyw]
      unfold progressWinnerToNextRound
      rw [hw, hnf]
      dsimp only
      rw [hsave]
    · intro g hg hgid
      unfold progressWinnerToNextRound
      rw [hw, hnf]
      dsimp only
      rcases hsv : fixtureSave false (fillSlot w nf) with _ | nf'
      · simp only [hsv]
        exact hg
      · simp only [hsv]
        obtain ⟨rfl, -, -⟩ := fixtureSave_false _ _ hsv
        simp only [updateFixtureInStore, List.mem_map]
        exact ⟨g, hg, by rw [fillSlot_id, if_neg hgid]⟩

/-- A completed round-1 match with winner 1, used by concrete progression
scenarios. -/
def sampleCompleted : Fixture :=
  { id := 10, round := 1, matchNumber := 1, participant1 := some 1, participant2 := some 2,
    result := some { participant1Score := 2, participant2Score := 1, forfeit := false },
    status := FxStatus.Completed, winner := some 1 }

/-- A round-2 match with slot 1 taken by participant 3 and slot 2 open. -/
def sampleSemi1 : Fixture :=
  { id := 20, round := 2, matchNumber := 1, participant1 := some 3, participant2 := none,
    result := none, status := FxStatus.Scheduled, winner := none }

/-- A round-2 match with both slots open. -/
def sampleSemi2 : Fixture :=
  { id := 21, round := 2, matchNumber := 2, participant1 := none, participant2 := none,
    result := none, status := FxStatus.Scheduled, winner := none }

/-- A round-2 match with slot 1 taken by participant 4 and slot 2 open. -/
def sampleSemi3 : Fixture :=
  { id := 22, round := 2, matchNumber := 2, participant1 := some 4, participant2 := none,
    result := none, status := FxStatus.Scheduled, winner := none }

/-- C2 (counterexample): a downstream round-2 match (`sampleSemi2`) exists
and its slot 1 is empty, so the claim demands slot 1 be filled with
winner 1; but both of its slots are empty, the half-filled document fails
the schema's required-slot validation inside `save()`, the caught error is
only logged, and the store — hence slot 1 — is left unchanged. -/
theorem progression_both_open_unchanged :
    sampleCompleted.winner = some 1 ∧
    nextOpenFixture [sampleSemi2] sampleCompleted = some sampleSemi2 ∧
    sampleSemi2.participant1 = none ∧
    progressWinnerToNextRound [sampleSemi2] sampleCompleted = [sampleSemi2] := by
  decide

/-- C2 witness: with a single round-2 match whose slot 1 holds participant 3
and whose slot 2 is open, winner 1 of the completed round-1 match completes
the match, so the write persists. -/
theorem progression_fills_first_open_slot_witness :
    sampleCompleted.winner = some 1 ∧
    (((∀ f ∈ [sampleSemi1], f.round ≠ sampleCompleted.round + 1) →
        progressWinnerToNextRound [sampleSemi1] sampleCompleted = [sampleSemi1]) ∧
      (∀ nf, nextOpenFixture [sampleSemi1] sampleCompleted = some nf →
        (nf.participant1 = none → nf.participant2 = none →
          progressWinnerToNextRound [sampleSemi1] sampleCompleted = [sampleSemi1]) ∧
        (∀ x : Ident, nf.participant1 = none → nf.participant2 = some x → x ≠ 1 →
          progressWinnerToNextRound [sampleSemi1] sampleCompleted =
            updateFixtureInStore [sampleSemi1] { nf with participant1 := some 1 }) ∧
        (∀ y : Ident, nf.participant1 = some y → nf.participant2 = none → y ≠ 1 →
          progressWinnerToNextRound [sampleSemi1] sampleCompleted =
            updateFixtureInStore [sampleSemi1] { nf with participant2 := some 1 }) ∧
        (∀ g ∈ [sampleSemi1], g.id ≠ nf.id →
          g ∈ progressWinnerToNextRound [sampleSemi1] sampleCompleted))) :=
  ⟨rfl, progression_fills_first_open_slot [sampleSemi1] sampleCompleted 1 rfl⟩

/-! ## Claim C3 -/

/-- C3 (counterexample): two round-2 fixtures, each with exactly one open
slot.  The first call fills `sampleSemi1`'s slot 2 with winner 1 — the
saved document has both slots set and distinct, so validation passes — and
the second call fills `sampleSemi3`'s slot 2 with the same winner, so
double invocation differs from single invocation. -/
theorem progression_not_idempotent :
    progressWinnerToNextRound
        (progressWinnerToNextRound [sampleSemi1, sampleSemi3] sampleCompleted)
        sampleCompleted ≠
      progressWinnerToNextRound [sampleSemi1, sampleSemi3] sampleCompleted := by
  decide

/-! ## Claim C3, amended statement -/

theorem fillSlot_round (w : Ident) (f : Fixture) : (fillSlot w f).round = f.round := by
  unfold fillSlot
  split_ifs <;> rfl

theorem updateStore_noop : ∀ (xs : List Fixture) (nf' : Fixture),
    nf'.id ∉ xs.map Fixture.id → updateFixtureInStore xs nf' = xs
  | [], _, _ => rfl
  | g :: gs, nf', h => by
    simp only [List.map_cons, List.mem_cons, not_or] at h
    show (if g.id = nf'.id then nf' else g) :: updateFixtureInStore gs nf' = g :: gs
    rw [if_neg (fun he => h.1 he.symm), updateStore_noop gs nf' h.2]

theorem filter_updateStore : ∀ (st : List Fixture) (nf nf' : Fixture) (p : Fixture → Bool),
    (st.map Fixture.id).Nodup → st.filter p = [nf] → nf'.id = nf.id →
    (updateFixtureInStore st nf').filter p = if p nf' then [nf'] else []
  | [], nf, nf', p, _, hfil, _ => by simp at hfil
  | g :: gs, nf, nf', p, hids, hfil, hid => by
    simp only [List.map_cons, List.nodup_cons] at hids
    rw [List.filter_cons] at hfil
    cases hpg : p g with
    | false =>
      rw [hpg] at hfil
      simp only [Bool.false_eq_true, if_false] at hfil
      have hnfmem : nf ∈ gs :=
        List.mem_of_mem_filter (hfil ▸ List.mem_singleton_self nf)
      have hgid : ¬ g.id = nf'.id := by
        rw [hid]
        intro he
        exact hids.1 (he ▸ List.mem_map_of_mem Fixture.id hnfmem)
      show ((if g.id = nf'.id then nf' else g) :: updateFixtureInStore gs nf').filter p = _
      rw [if_neg hgid, List.filter_cons, hpg]
      simp only [Bool.false_eq_true, if_false]
      exact filter_updateStore gs nf nf' p hids.2 hfil hid
    | true =>
      rw [hpg] at hfil
      simp only [if_true] at hfil
      have hg : g = nf := (List.cons.injEq _ _ _ _ ▸ hfil).1
      have htl : gs.filter p = [] := (List.cons.injEq _ _ _ _ ▸ hfil).2
      subst hg
      show ((if g.id = nf'.id then nf' else g) :: updateFixtureInStore gs nf').filter p = _
      rw [if_pos hid.symm, updateStore_noop gs nf' (by rw [hid]; exact hids.1),
        List.filter_cons, htl]
/-- C3 (amended): winner progression is idempotent whenever at most one
next-round fixture has an unfilled slot (in particular on every store
satisfying the schema's required-slots invariant, where progression is a
no-op): a persisted fill completes the only open fixture, so a second
invocation finds no open fixture, and a rejected save — the required-slot
validation on a doubly-open fixture, or the duplicate-participant hook —
leaves the store unchanged both times.  With two or more open next-round
fixtures, each completable, the second invocation fills a slot of the next
one, which the original claim rules out. -/
theorem progression_idempotent_single_open (st : List Fixture) (c : Fixture)
    (hids : (st.map Fixture.id).Nodup)
    (hopen : (st.filter fun f => f.round = c.round + 1 && openSlot f).length ≤ 1) :
    progressWinnerToNextRound (progressWinnerToNextRound st c) c =
      progressWinnerToNextRound st c := by
  rcases hw : c.winner with _ | w
  · have h1 : progressWinnerToNextRound st c = st := by
      unfold progressWinnerToNextRound
      rw [hw]
    simp only [h1]
  · rcases hfil : st.filter (fun f => f.round = c.round + 1 && openSlot f) with _ | ⟨nf, rest⟩
    · have hnof : nextOpenFixture st c = none := by
        unfold nextOpenFixture
        rw [hfil]
        rfl
      have h1 : progressWinnerToNextRound st c = st := by
        unfold progressWinnerToNextRound
        rw [hw, hnof]
      simp only [h1]
    · have hrest : rest = [] := by
        rw [hfil] at hopen
        simp only [List.length_cons] at hopen
        exact List.eq_nil_of_length_eq_zero (by omega)
      subst hrest
      have hnof : nextOpenFixture st c = some nf := by
        unfold nextOpenFixture
        rw [hfil]
        simp [List.insertionSort, List.orderedInsert]
      obtain ⟨hmem, hround, hslot⟩ := nextOpenFixture_spec st c nf hnof
      rcases hsave : fixtureSave false (fillSlot w nf) with _ | nf'
      · have h1 : progressWinnerToNextRound st c = st := by
          unfold progressWinnerToNextRound
          rw [hw, hnof]
          dsimp only
          rw [hsave]
        simp only [h1]
      · obtain ⟨rfl, hreq, hpd⟩ := fixtureSave_false _ _ hsave
        have h1 : progressWinnerToNextRound st c =
            updateFixtureInStore st (fillSlot w nf) := by
          unfold progressWinnerToNextRound
          rw [hw, hnof]
          dsimp only
          rw [hsave]
        rw [h1]
        have hfid : (fillSlot w nf).id = nf.id := fillSlot_id w nf
        have hfil1 := filter_updateStore st nf (fillSlot w nf)
          (fun f => f.round = c.round + 1 && openSlot f) hids hfil hfid
        rcases hp1 : nf.participant1 with _ | y
        · rcases hp2 : nf.participant2 with _ | x
          · -- both slots were open: the half-filled document fails the
            -- required-slot validation, contradicting the persisted save
            exfalso
            have hfs : fillSlot w nf = { nf with participant1 := some w } := by
              simp [fillSlot, hp1]
            rw [hfs] at hreq
            simp [requiredFieldsOk, hp2] at hreq
          · -- slot 2 already held a participant: the filled fixture is closed
            have hfs : fillSlot w nf = { nf with participant1 := some w } := by
              simp [fillSlot, hp1]
            have hopen1 : openSlot (fillSlot w nf) = false := by
              simp [hfs, openSlot, hp2]
            have hfil1' : (updateFixtureInStore st (fillSlot w nf)).filter
                (fun f => f.round = c.round + 1 && openSlot f) = [] := by
              rw [hfil1, if_neg]
              simp [hopen1]
            have hnof1 : nextOpenFixture (updateFixtureInStore st (fillSlot w nf)) c =
                none := by
              unfold nextOpenFixture
              rw [hfil1']
              rfl
            unfold progressWinnerToNextRound
            rw [hw, hnof1]
        · -- slot 1 already held a participant, so slot 2 was the open one
          have hp2 : nf.participant2 = none := by
            simp only [openSlot, hp1, Option.isSome_some, Option.isNone_some,
              Bool.false_or, Option.isNone_iff_eq_none] at hslot
            exact hslot
          have hfs : fillSlot w nf = { nf with participant2 := some w } := by
            simp [fillSlot, hp1, hp2]
          have hopen1 : openSlot (fillSlot w nf) = false := by
            simp [hfs, openSlot, hp1]
          have hfil1' : (updateFixtureInStore st (fillSlot w nf)).filter
              (fun f => f.round = c.round + 1 && openSlot f) = [] := by
            rw [hfil1, if_neg]
            simp [hopen1]
          have hnof1 : nextOpenFixture (updateFixtureInStore st (fillSlot w nf)) c =
              none := by
            unfold nextOpenFixture
            rw [hfil1']
            rfl
          unfold progressWinnerToNextRound
          rw [hw, hnof1]

/-- C3 amended witness: a store with a single open round-2 fixture. -/
theorem progression_idempotent_single_open_witness :
    (([sampleSemi1].map Fixture.id).Nodup) ∧
    (([sampleSemi1].filter fun f =>
        f.round = sampleCompleted.round + 1 && openSlot f).length ≤ 1) ∧
    progressWinnerToNextRound (progressWinnerToNextRound [sampleSemi1] sampleCompleted)
        sampleCompleted =
      progressWinnerToNextRound [sampleSemi1] sampleCompleted :=
  ⟨by decide, by decide,
    progression_idempotent_single_open [sampleSemi1] sampleCompleted (by decide) (by decide)⟩


/-! ## Claim C7 -/

/-- An open two-participant tournament with nobody registered yet. -/
def regInitDemo : RegState :=
  { regs := [], currentParticipants := 0, maxParticipants := 2, tstatus := TournStatus.Open }

/-- Register three captains, rejecting the first in between so the third
registration passes the capacity guard, then approve all three. -/
def regEvsDemo : List RegEvent :=
  [RegEvent.register 1, RegEvent.register 2,
   RegEvent.setStatus 1 RegStatus.Rejected,
   RegEvent.register 3,
   RegEvent.setStatus 1 RegStatus.Approved,
   RegEvent.setStatus 2 RegStatus.Approved,
   RegEvent.setStatus 3 RegStatus.Approved]

/-- C7 (counterexample): after the demo event sequence the tournament holds
`currentParticipants = 3` against `maxParticipants = 2` — the status-update
route recomputes occupancy as the approved count with no capacity check, so
occupancy exceeds capacity (and the status duly reads `Full`). -/
theorem capacity_exceeded_by_status_updates :
    (runRegEvents regInitDemo regEvsDemo).maxParticipants <
      (runRegEvents regInitDemo regEvsDemo).currentParticipants ∧
    (runRegEvents regInitDemo regEvsDemo).tstatus = TournStatus.Full := by
  decide

theorem registerParticipant_capacity (s : RegState) (captain : Ident) :
    registerParticipant s captain = s ∨
      (registerParticipant s captain).currentParticipants ≤
        (registerParticipant s captain).maxParticipants := by
  unfold registerParticipant
  dsimp only
  split_ifs with h1 h2 h3 h4
  · exact Or.inl rfl
  · exact Or.inl rfl
  · exact Or.inl rfl
  · right
    show pendingApprovedCount s.regs + 1 ≤ s.maxParticipants
    omega
  · right
    show pendingApprovedCount s.regs + 1 ≤ s.maxParticipants
    omega

theorem applyRegEvent_fullIff (s : RegState) (e : RegEvent)
    (h : s.tstatus = TournStatus.Full ↔ s.maxParticipants ≤ s.currentParticipants) :
    (applyRegEvent s e).tstatus = TournStatus.Full ↔
      (applyRegEvent s e).maxParticipants ≤ (applyRegEvent s e).currentParticipants := by
  cases e with
  | register captain =>
    simp only [applyRegEvent]
    unfold registerParticipant
    dsimp only
    split_ifs with h1 h2 h3 h4
    · exact h
    · exact h
    · exact h
    · simpa using h4
    · simpa using h4
  | setStatus rid newStatus =>
    simp only [applyRegEvent]
    unfold setRegistrationStatus
    dsimp only
    split_ifs with h1 h2
    · simpa using h2
    · simpa using h2
    · exact h

theorem runRegEvents_fullIff (es : List RegEvent) : ∀ (s : RegState),
    (s.tstatus = TournStatus.Full ↔ s.maxParticipants ≤ s.currentParticipants) →
    ((runRegEvents s es).tstatus = TournStatus.Full ↔
      (runRegEvents s es).maxParticipants ≤ (runRegEvents s es).currentParticipants) := by
  induction es with
  | nil => intro s h; exact h
  | cons e es ih =>
    intro s h
    exact ih (applyRegEvent s e) (applyRegEvent_fullIff s e h)

/-- C7 (amended): a registration event never drives occupancy above
capacity (the guard rejects it first), and after any sequence of
registration and status events the tournament status is `Full` exactly when
occupancy has reached or exceeded capacity, reverting to `Open` otherwise;
status-update events, however, recompute occupancy as the bare approved
count without a capacity check, so they can push occupancy above
`maxParticipants`. -/
theorem capacity_amended (s : RegState) (es : List RegEvent)
    (hinv : s.tstatus = TournStatus.Full ↔ s.maxParticipants ≤ s.currentParticipants) :
    ((runRegEvents s es).tstatus = TournStatus.Full ↔
      (runRegEvents s es).maxParticipants ≤ (runRegEvents s es).currentParticipants) ∧
    (∀ captain, registerParticipant s captain = s ∨
      (registerParticipant s captain).currentParticipants ≤
        (registerParticipant s captain).maxParticipants) :=
  ⟨runRegEvents_fullIff es s hinv, fun captain => registerParticipant_capacity s captain⟩

/-- C7 witness: the amended statement instantiated on the demo tournament
and event sequence. -/
theorem capacity_amended_witness :
    (regInitDemo.tstatus = TournStatus.Full ↔
      regInitDemo.maxParticipants ≤ regInitDemo.currentParticipants) ∧
    (((runRegEvents regInitDemo regEvsDemo).tstatus = TournStatus.Full ↔
        (runRegEvents regInitDemo regEvsDemo).maxParticipants ≤
          (runRegEvents regInitDemo regEvsDemo).currentParticipants) ∧
      (∀ captain, registerParticipant regInitDemo captain = regInitDemo ∨
        (registerParticipant regInitDemo captain).currentParticipants ≤
          (registerParticipant regInitDemo captain).maxParticipants)) :=
  ⟨by decide, capacity_amended regInitDemo regEvsDemo (by decide)⟩


/-! ## Claim C6: spec-side vocabulary, accumulation, ordering -/

/-- Follows the spec's words: a fixture is counted by the standings
calculator when it is completed, carries a result and both of its
participants appear in the table. -/
def countedB (regs : List Ident) (f : Fixture) : Bool :=
  f.status = FxStatus.Completed &&
    match f.result, f.participant1, f.participant2 with
    | some _, some p1, some p2 => regs.contains p1 && regs.contains p2
    | _, _, _ => false

/-- Follows the spec's words: participant `p` plays in fixture `f`. -/
def playsIn (p : Ident) (f : Fixture) : Bool :=
  match f.participant1, f.participant2 with
  | some p1, some p2 => p1 = p || p2 = p
  | _, _ => false

/-- Follows the spec's words: the goals scored for and against `p` in `f`
(`(0, 0)` when `p` does not play in `f`). -/
def goalsOf (p : Ident) (f : Fixture) : Nat × Nat :=
  match f.result, f.participant1, f.participant2 with
  | some r, some p1, some p2 =>
    if p1 = p then (r.participant1Score, r.participant2Score)
    else if p2 = p then (r.participant2Score, r.participant1Score)
    else (0, 0)
  | _, _, _ => (0, 0)

/-- Follows the spec's words: matches played by `p` among the counted
completed fixtures. -/
def specPlayed (regs : List Ident) (p : Ident) (fxs : List Fixture) : Nat :=
  (fxs.filter (countedB regs)).countP (playsIn p)

/-- Follows the spec's words: wins of `p` — counted fixtures where `p`'s
goals-for strictly exceed goals-against. -/
def specWins (regs : List Ident) (p : Ident) (fxs : List Fixture) : Nat :=
  (fxs.filter (countedB regs)).countP fun f =>
    playsIn p f && decide ((goalsOf p f).2 < (goalsOf p f).1)

/-- Follows the spec's words: losses of `p`. -/
def specLosses (regs : List Ident) (p : Ident) (fxs : List Fixture) : Nat :=
  (fxs.filter (countedB regs)).countP fun f =>
    playsIn p f && decide ((goalsOf p f).1 < (goalsOf p f).2)

/-- Follows the spec's words: draws of `p`. -/
def specDraws (regs : List Ident) (p : Ident) (fxs : List Fixture) : Nat :=
  (fxs.filter (countedB regs)).countP fun f =>
    playsIn p f && decide ((goalsOf p f).1 = (goalsOf p f).2)

/-- Follows the spec's words: goals scored by `p` over the counted
fixtures. -/
def specGoalsFor (regs : List Ident) (p : Ident) (fxs : List Fixture) : Nat :=
  ((fxs.filter (countedB regs)).map fun f => (goalsOf p f).1).sum

/-- Follows the spec's words: goals conceded by `p` over the counted
fixtures. -/
def specGoalsAgainst (regs : List Ident) (p : Ident) (fxs : List Fixture) : Nat :=
  ((fxs.filter (countedB regs)).map fun f => (goalsOf p f).2).sum

/-- Follows the spec's words: the per-participant accumulation step — when a
counted fixture involves `p`, fold `p`'s goals into the row. -/
def rowStep (regs : List Ident) (p : Ident) (row : StandingRow) (f : Fixture) : StandingRow :=
  if countedB regs f && playsIn p f then
    scoreUpdate row (goalsOf p f).1 (goalsOf p f).2
  else row

theorem modifyIdx_length {α : Type} : ∀ (l : List α) (i : Nat) (g : α → α),
    (modifyIdx l i g).length = l.length
  | [], _, _ => rfl
  | _ :: xs, 0, g => rfl
  | x :: xs, i + 1, g => by simp [modifyIdx, modifyIdx_length xs i g]

theorem modifyIdx_getElem? {α : Type} : ∀ (l : List α) (i j : Nat) (g : α → α),
    (modifyIdx l i g)[j]? = if i = j then (l[j]?).map g else l[j]?
  | [], i, j, g => by simp [modifyIdx]
  | x :: xs, 0, 0, g => by simp [modifyIdx]
  | x :: xs, 0, j + 1, g => by simp [modifyIdx]
  | x :: xs, i + 1, 0, g => by simp [modifyIdx]
  | x :: xs, i + 1, j + 1, g => by
    simp only [modifyIdx, List.getElem?_cons_succ]
    rw [modifyIdx_getElem? xs i j g]
    by_cases h : i = j <;> simp [h]

theorem findIdx?_getElem {α : Type} (p : α → Bool) (l : List α) (i : Nat)
    (h : l.findIdx? p = some i) : ∃ x, l[i]? = some x ∧ p x = true := by
  rcases List.findIdx?_eq_some_iff_findIdx_eq.mp h with ⟨hlen, rfl⟩
  exact ⟨l[List.findIdx p l], List.getElem?_eq_getElem hlen,
    @List.findIdx_getElem _ p l hlen⟩

theorem scoreUpdate_participant (row : StandingRow) (gf ga : Nat) :
    (scoreUpdate row gf ga).participant = row.participant := rfl

theorem rowStep_participant (regs : List Ident) (p : Ident) (row : StandingRow) (f : Fixture) :
    (rowStep regs p row f).participant = row.participant := by
  unfold rowStep
  split_ifs <;> rfl

theorem modifyIdx_map_participant : ∀ (rows : List StandingRow) (i : Nat)
    (g : StandingRow → StandingRow),
    (∀ r, (g r).participant = r.participant) →
    (modifyIdx rows i g).map StandingRow.participant = rows.map StandingRow.participant
  | [], _, _, _ => rfl
  | x :: xs, 0, g, hg => by simp [modifyIdx, hg x]
  | x :: xs, i + 1, g, hg => by
    simp [modifyIdx, modifyIdx_map_participant xs i g hg]

theorem apply_participants (rows : List StandingRow) (f : Fixture) :
    (applyCompletedFixture rows f).map StandingRow.participant =
      rows.map StandingRow.participant := by
  unfold applyCompletedFixture
  split_ifs with hst
  · rcases f.result with _ | r <;> rcases f.participant1 with _ | p1 <;>
      rcases f.participant2 with _ | p2 <;> try rfl
    rcases h1 : rows.findIdx? (fun s => s.participant = p1) with _ | i1 <;>
      rcases h2 : rows.findIdx? (fun s => s.participant = p2) with _ | i2 <;>
      simp only [h1, h2] <;> try rfl
    rw [modifyIdx_map_participant _ i2 _ (fun r => scoreUpdate_participant r _ _),
      modifyIdx_map_participant _ i1 _ (fun r => scoreUpdate_participant r _ _)]
  · rfl

theorem getElem?_participant_inj (rows : List StandingRow)
    (hnd : (rows.map StandingRow.participant).Nodup) (i j : Nat) (x y : StandingRow)
    (hi : rows[i]? = some x) (hj : rows[j]? = some y)
    (hxy : x.participant = y.participant) : i = j := by
  have hmi : (rows.map StandingRow.participant)[i]? = some x.participant := by
    rw [List.getElem?_map, hi]
    rfl
  have hmj : (rows.map StandingRow.participant)[j]? = some y.participant := by
    rw [List.getElem?_map, hj]
    rfl
  have hilen : i < (rows.map StandingRow.participant).length := by
    by_contra hc
    rw [List.getElem?_eq_none (by omega)] at hmi
    cases hmi
  exact List.getElem?_inj hilen hnd (by rw [hmi, hmj, hxy])

theorem playsIn_false_goalsOf (p : Ident) (f : Fixture) (h : playsIn p f = false) :
    goalsOf p f = (0, 0) := by
  unfold goalsOf
  rcases hr : f.result with _ | r
  · rfl
  · rcases hp1 : f.participant1 with _ | p1
    · rfl
    · rcases hp2 : f.participant2 with _ | p2
      · rfl
      · unfold playsIn at h
        rw [hp1, hp2] at h
        simp only [Bool.or_eq_false_iff, decide_eq_false_iff_not] at h
        dsimp only
        rw [if_neg h.1, if_neg h.2]

theorem apply_getElem? (regs : List Ident) (rows : List StandingRow) (f : Fixture)
    (hmap : rows.map StandingRow.participant = regs) (hnd : regs.Nodup)
    (hdiff : participantsDifferent f = true) (i : Nat) :
    (applyCompletedFixture rows f)[i]? =
      (rows[i]?).map fun row => rowStep regs row.participant row f := by
  by_cases hst : f.status = FxStatus.Completed
  · rcases hr : f.result with _ | r
    · have hc : applyCompletedFixture rows f = rows := by
        unfold applyCompletedFixture
        rw [if_pos hst, hr]
      have hcnt : ∀ row : StandingRow, rowStep regs row.participant row f = row := by
        intro row
        unfold rowStep countedB
        rw [hr]
        simp
      rw [hc]
      cases hrow : rows[i]? <;> simp [hcnt]
    · rcases hp1 : f.participant1 with _ | p1
      · have hc : applyCompletedFixture rows f = rows := by
          unfold applyCompletedFixture
          rw [if_pos hst, hr, hp1]
        have hcnt : ∀ row : StandingRow, rowStep regs row.participant row f = row := by
          intro row
          unfold rowStep countedB
          rw [hr, hp1]
          simp
        rw [hc]
        cases hrow : rows[i]? <;> simp [hcnt]
      · rcases hp2 : f.participant2 with _ | p2
        · have hc : applyCompletedFixture rows f = rows := by
            unfold applyCompletedFixture
            rw [if_pos hst, hr, hp1, hp2]
          have hcnt : ∀ row : StandingRow, rowStep regs row.participant row f = row := by
            intro row
            unfold rowStep countedB
            rw [hr, hp1, hp2]
            simp
          rw [hc]
          cases hrow : rows[i]? <;> simp [hcnt]
        · -- completed fixture with result and both participants
          have hne : p1 ≠ p2 := by
            unfold participantsDifferent at hdiff
            rw [hp1, hp2] at hdiff
            simpa using hdiff
          rcases h1 : rows.findIdx? (fun s => s.participant = p1) with _ | i1
          · -- participant 1 not in the table
            have hc : applyCompletedFixture rows f = rows := by
              unfold applyCompletedFixture
              rw [if_pos hst, hr, hp1, hp2]
              dsimp only
              rw [h1]
            have hnc : countedB regs f = false := by
              unfold countedB
              rw [hr, hp1, hp2]
              have : ¬ p1 ∈ regs := by
                rw [← hmap]
                intro hmem
                obtain ⟨row, hrow, hrp⟩ := List.mem_map.mp hmem
                have := List.findIdx?_eq_none_iff.mp h1 row hrow
                simp [hrp] at this
              simp [this]
            have hcnt : ∀ row : StandingRow, rowStep regs row.participant row f = row := by
              intro row
              unfold rowStep
              rw [hnc]
              simp
            rw [hc]
            cases hrow : rows[i]? <;> simp [hcnt]
          · rcases h2 : rows.findIdx? (fun s => s.participant = p2) with _ | i2
            · have hc : applyCompletedFixture rows f = rows := by
                unfold applyCompletedFixture
                rw [if_pos hst, hr, hp1, hp2]
                dsimp only
                rw [h1, h2]
              have hnc : countedB regs f = false := by
                unfold countedB
                rw [hr, hp1, hp2]
                have : ¬ p2 ∈ regs := by
                  rw [← hmap]
                  intro hmem
                  obtain ⟨row, hrow, hrp⟩ := List.mem_map.mp hmem
                  have := List.findIdx?_eq_none_iff.mp h2 row hrow
                  simp [hrp] at this
                simp [this]
              have hcnt : ∀ row : StandingRow, rowStep regs row.participant row f = row := by
                intro row
                unfold rowStep
                rw [hnc]
                simp
              rw [hc]
              cases hrow : rows[i]? <;> simp [hcnt]
            · -- both participants found
              obtain ⟨x1, hx1, hpx1⟩ := findIdx?_getElem _ rows i1 h1
              obtain ⟨x2, hx2, hpx2⟩ := findIdx?_getElem _ rows i2 h2
              simp only [decide_eq_true_eq] at hpx1 hpx2
              have hmapnd : (rows.map StandingRow.participant).Nodup := by
                rw [hmap]
                exact hnd
              have hii : i1 ≠ i2 := by
                intro he
                rw [he, hx2] at hx1
                have hv : x2 = x1 := by injection hx1
                apply hne
                rw [← hpx1, ← hpx2, hv]
              have hcnt : countedB regs f = true := by
                unfold countedB
                rw [hr, hp1, hp2]
                have hm1 : p1 ∈ regs := by
                  rw [← hmap, ← hpx1]
                  exact List.mem_map_of_mem _ (List.getElem?_mem hx1)
                have hm2 : p2 ∈ regs := by
                  rw [← hmap, ← hpx2]
                  exact List.mem_map_of_mem _ (List.getElem?_mem hx2)
                simp [hst, hm1, hm2]
              have hc : applyCompletedFixture rows f =
                  modifyIdx
                    (modifyIdx rows i1 fun row =>
                      scoreUpdate row r.participant1Score r.participant2Score)
                    i2 (fun row => scoreUpdate row r.participant2Score r.participant1Score) := by
                unfold applyCompletedFixture
                rw [if_pos hst, hr, hp1, hp2]
                dsimp only
                rw [h1, h2]
              rw [hc, modifyIdx_getElem?, modifyIdx_getElem?]
              cases hrow : rows[i]? with
              | none => by_cases hi2 : i2 = i <;> by_cases hi1 : i1 = i <;> simp [hi1, hi2]
              | some row =>
                by_cases hi1 : i1 = i
                · have hi2 : ¬ i2 = i := by omega
                  have hxr : x1 = row := by
                    rw [hi1, hrow] at hx1
                    injection hx1 with hv
                    exact hv.symm
                  rw [if_neg hi2, if_pos hi1]
                  unfold rowStep
                  rw [hcnt]
                  have hrp : row.participant = p1 := by rw [← hxr, hpx1]
                  have hplays : playsIn row.participant f = true := by
                    unfold playsIn
                    rw [hp1, hp2, hrp]
                    simp
                  have hgoals : goalsOf row.participant f =
                      (r.participant1Score, r.participant2Score) := by
                    unfold goalsOf
                    rw [hr, hp1, hp2, hrp]
                    simp
                  simp [hplays, hgoals]
                · by_cases hi2 : i2 = i
                  · have hxr : x2 = row := by
                      rw [hi2, hrow] at hx2
                      injection hx2 with hv
                      exact hv.symm
                    rw [if_pos hi2, if_neg hi1]
                    unfold rowStep
                    rw [hcnt]
                    have hrp : row.participant = p2 := by rw [← hxr, hpx2]
                    have hplays : playsIn row.participant f = true := by
                      unfold playsIn
                      rw [hp1, hp2, hrp]
                      simp
                    have hgoals : goalsOf row.participant f =
                        (r.participant2Score, r.participant1Score) := by
                      unfold goalsOf
                      rw [hr, hp1, hp2, hrp]
                      have : ¬ p1 = p2 := hne
                      simp [this]
                    simp [hplays, hgoals]
                  · rw [if_neg hi2, if_neg hi1]
                    have hnp1 : ¬ row.participant = p1 := by
                      intro he
                      exact hi1 (getElem?_participant_inj rows hmapnd i1 i x1 row hx1 hrow
                        (by rw [hpx1, he]))
                    have hnp2 : ¬ row.participant = p2 := by
                      intro he
                      exact hi2 (getElem?_participant_inj rows hmapnd i2 i x2 row hx2 hrow
                        (by rw [hpx2, he]))
                    unfold rowStep
                    have hplays : playsIn row.participant f = false := by
                      unfold playsIn
                      rw [hp1, hp2]
                      simp only [Bool.or_eq_false_iff, decide_eq_false_iff_not]
                      exact ⟨fun he => hnp1 he.symm, fun he => hnp2 he.symm⟩
                    simp [hplays]
  · have hc : applyCompletedFixture rows f = rows := by
      unfold applyCompletedFixture
      rw [if_neg hst]
    have hcnt : ∀ row : StandingRow, rowStep regs row.participant row f = row := by
      intro row
      unfold rowStep countedB
      have : decide (f.status = FxStatus.Completed) = false := by simp [hst]
      rw [this]
      simp
    rw [hc]
    cases hrow : rows[i]? <;> simp [hcnt]

theorem foldl_apply_getElem? (regs : List Ident) (hnd : regs.Nodup) : ∀ (fxs : List Fixture)
    (rows : List StandingRow), rows.map StandingRow.participant = regs →
    (∀ f ∈ fxs, participantsDifferent f = true) → ∀ i : Nat,
    (fxs.foldl applyCompletedFixture rows)[i]? =
      (rows[i]?).map fun row => fxs.foldl (rowStep regs row.participant) row
  | [], rows, _, _, i => by
    cases hrow : rows[i]? <;> simp [hrow]
  | f :: fxs, rows, hmap, hdiff, i => by
    simp only [List.foldl_cons]
    rw [foldl_apply_getElem? regs hnd fxs (applyCompletedFixture rows f)
      (by rw [apply_participants]; exact hmap)
      (fun g hg => hdiff g (List.mem_cons_of_mem f hg)) i]
    rw [apply_getElem? regs rows f hmap hnd (hdiff f (List.mem_cons_self f fxs)) i]
    cases hrow : rows[i]? with
    | none => rfl
    | some row =>
      simp only [Option.map_some']
      rw [rowStep_participant]

theorem rowFold_stats (regs : List Ident) (p : Ident) : ∀ (fxs : List Fixture)
    (row : StandingRow),
    (fxs.foldl (rowStep regs p) row).participant = row.participant ∧
    (fxs.foldl (rowStep regs p) row).position = row.position ∧
    (fxs.foldl (rowStep regs p) row).goalDifference = row.goalDifference ∧
    (fxs.foldl (rowStep regs p) row).matchesPlayed =
      row.matchesPlayed + specPlayed regs p fxs ∧
    (fxs.foldl (rowStep regs p) row).wins = row.wins + specWins regs p fxs ∧
    (fxs.foldl (rowStep regs p) row).losses = row.losses + specLosses regs p fxs ∧
    (fxs.foldl (rowStep regs p) row).draws = row.draws + specDraws regs p fxs ∧
    (fxs.foldl (rowStep regs p) row).points =
      row.points + (3 * specWins regs p fxs + specDraws regs p fxs) ∧
    (fxs.foldl (rowStep regs p) row).goalsFor = row.goalsFor + specGoalsFor regs p fxs ∧
    (fxs.foldl (rowStep regs p) row).goalsAgainst =
      row.goalsAgainst + specGoalsAgainst regs p fxs
  | [], row => by
    simp [specPlayed, specWins, specLosses, specDraws, specGoalsFor, specGoalsAgainst]
  | f :: fxs, row => by
    obtain ⟨ihpart, ihpos, ihgd, ihmp, ihw, ihl, ihd, ihpts, ihgf, ihga⟩ :=
      rowFold_stats regs p fxs (rowStep regs p row f)
    simp only [List.foldl_cons]
    by_cases hc : countedB regs f
    · by_cases hp : playsIn p f
      · have hstep : rowStep regs p row f =
            scoreUpdate row (goalsOf p f).1 (goalsOf p f).2 := by
          unfold rowStep
          rw [hc, hp]
          rfl
        have hP : specPlayed regs p (f :: fxs) = specPlayed regs p fxs + 1 := by
          unfold specPlayed
          rw [List.filter_cons, if_pos hc, List.countP_cons]
          simp [hp]
        have hW : specWins regs p (f :: fxs) =
            specWins regs p fxs + (if (goalsOf p f).2 < (goalsOf p f).1 then 1 else 0) := by
          unfold specWins
          rw [List.filter_cons, if_pos hc, List.countP_cons]
          simp [hp]
        have hL : specLosses regs p (f :: fxs) =
            specLosses regs p fxs + (if (goalsOf p f).1 < (goalsOf p f).2 then 1 else 0) := by
          unfold specLosses
          rw [List.filter_cons, if_pos hc, List.countP_cons]
          simp [hp]
        have hD : specDraws regs p (f :: fxs) =
            specDraws regs p fxs + (if (goalsOf p f).1 = (goalsOf p f).2 then 1 else 0) := by
          unfold specDraws
          rw [List.filter_cons, if_pos hc, List.countP_cons]
          simp [hp]
        have hGF : specGoalsFor regs p (f :: fxs) =
            (goalsOf p f).1 + specGoalsFor regs p fxs := by
          unfold specGoalsFor
          rw [List.filter_cons, if_pos hc, List.map_cons, List.sum_cons]
        have hGA : specGoalsAgainst regs p (f :: fxs) =
            (goalsOf p f).2 + specGoalsAgainst regs p fxs := by
          unfold specGoalsAgainst
          rw [List.filter_cons, if_pos hc, List.map_cons, List.sum_cons]
        rw [hstep] at ihpart ihpos ihgd ihmp ihw ihl ihd ihpts ihgf ihga
        rw [hstep]
        refine ⟨ihpart.trans rfl, ihpos.trans rfl, ihgd.trans rfl, ?_, ?_, ?_, ?_, ?_, ?_, ?_⟩
        · rw [ihmp, hP]
          show row.matchesPlayed + 1 + _ = _
          omega
        · rw [ihw, hW]
          show row.wins + (if (goalsOf p f).2 < (goalsOf p f).1 then 1 else 0) + _ = _
          omega
        · rw [ihl, hL]
          show row.losses + (if (goalsOf p f).2 > (goalsOf p f).1 then 1 else 0) + _ = _
          by_cases h : (goalsOf p f).1 < (goalsOf p f).2 <;> simp [h, gt_iff_lt] <;> omega
        · rw [ihd, hD]
          show row.draws + (if (goalsOf p f).1 = (goalsOf p f).2 then 1 else 0) + _ = _
          omega
        · rw [ihpts, hW, hD]
          show row.points +
              (if (goalsOf p f).2 < (goalsOf p f).1 then 3
               else if (goalsOf p f).1 = (goalsOf p f).2 then 1 else 0) + _ = _
          rcases Nat.lt_trichotomy (goalsOf p f).1 (goalsOf p f).2 with h | h | h
          · rw [if_neg (by omega), if_neg (by omega)]
            simp only [if_neg (by omega : ¬ (goalsOf p f).2 < (goalsOf p f).1),
              if_neg (by omega : ¬ (goalsOf p f).1 = (goalsOf p f).2)]
            omega
          · rw [if_neg (by omega), if_pos h]
            simp only [if_neg (by omega : ¬ (goalsOf p f).2 < (goalsOf p f).1),
              if_pos h]
            omega
          · rw [if_pos h]
            simp only [if_pos h, if_neg (by omega : ¬ (goalsOf p f).1 = (goalsOf p f).2)]
            omega
        · rw [ihgf, hGF]
          show row.goalsFor + (goalsOf p f).1 + _ = _
          omega
        · rw [ihga, hGA]
          show row.goalsAgainst + (goalsOf p f).2 + _ = _
          omega
      · have hstep : rowStep regs p row f = row := by
          unfold rowStep
          simp [Bool.eq_false_iff.mpr hp]
        have hzero := playsIn_false_goalsOf p f (Bool.eq_false_iff.mpr hp)
        have hfil : (f :: fxs).filter (countedB regs) = f :: fxs.filter (countedB regs) := by
          rw [List.filter_cons, if_pos hc]
        have hP : specPlayed regs p (f :: fxs) = specPlayed regs p fxs := by
          unfold specPlayed
          rw [hfil, List.countP_cons]
          simp [hp]
        have hW : specWins regs p (f :: fxs) = specWins regs p fxs := by
          unfold specWins
          rw [hfil, List.countP_cons]
          simp [hp]
        have hL : specLosses regs p (f :: fxs) = specLosses regs p fxs := by
          unfold specLosses
          rw [hfil, List.countP_cons]
          simp [hp]
        have hD : specDraws regs p (f :: fxs) = specDraws regs p fxs := by
          unfold specDraws
          rw [hfil, List.countP_cons]
          simp [hp]
        have hGF : specGoalsFor regs p (f :: fxs) = specGoalsFor regs p fxs := by
          unfold specGoalsFor
          rw [hfil, List.map_cons, List.sum_cons, hzero]
          simp
        have hGA : specGoalsAgainst regs p (f :: fxs) = specGoalsAgainst regs p fxs := by
          unfold specGoalsAgainst
          rw [hfil, List.map_cons, List.sum_cons, hzero]
          simp
        rw [hstep] at ihpart ihpos ihgd ihmp ihw ihl ihd ihpts ihgf ihga
        rw [hstep, hP, hW, hL, hD, hGF, hGA]
        exact ⟨ihpart, ihpos, ihgd, ihmp, ihw, ihl, ihd, ihpts, ihgf, ihga⟩
    · have hstep : rowStep regs p row f = row := by
        unfold rowStep
        rw [Bool.eq_false_iff.mpr hc]
        simp
      have hfil : (f :: fxs).filter (countedB regs) = fxs.filter (countedB regs) := by
        rw [List.filter_cons, if_neg hc]
      rw [hstep] at ihpart ihpos ihgd ihmp ihw ihl ihd ihpts ihgf ihga
      rw [hstep]
      refine ⟨ihpart, ihpos, ihgd, ?_, ?_, ?_, ?_, ?_, ?_, ?_⟩
      · rw [ihmp]
        unfold specPlayed
        rw [hfil]
      · rw [ihw]
        unfold specWins
        rw [hfil]
      · rw [ihl]
        unfold specLosses
        rw [hfil]
      · rw [ihd]
        unfold specDraws
        rw [hfil]
      · rw [ihpts]
        unfold specWins specDraws
        rw [hfil]
      · rw [ihgf]
        unfold specGoalsFor
        rw [hfil]
      · rw [ihga]
        unfold specGoalsAgainst
        rw [hfil]

theorem standingsOrd_lt_iff (a b : StandingRow) :
    standingsOrd a b = Ordering.lt ↔
      (b.points < a.points ∨ (b.points = a.points ∧ (b.goalDifference < a.goalDifference ∨
        (b.goalDifference = a.goalDifference ∧ b.goalsFor < a.goalsFor)))) := by
  unfold standingsOrd
  split_ifs <;> simp_all <;> omega

theorem standingsOrd_eq_iff (a b : StandingRow) :
    standingsOrd a b = Ordering.eq ↔
      (a.points = b.points ∧ a.goalDifference = b.goalDifference ∧ a.goalsFor = b.goalsFor) := by
  unfold standingsOrd
  split_ifs <;> simp_all <;> omega

theorem standingsOrd_gt_iff (a b : StandingRow) :
    standingsOrd a b = Ordering.gt ↔
      (a.points < b.points ∨ (a.points = b.points ∧ (a.goalDifference < b.goalDifference ∨
        (a.goalDifference = b.goalDifference ∧ a.goalsFor < b.goalsFor)))) := by
  unfold standingsOrd
  split_ifs <;> simp_all <;> omega

instance : IsTotal (Nat × StandingRow) stableLE := by
  constructor
  intro x y
  rcases hxy : standingsOrd x.2 y.2 with _ | _ | _
  · exact Or.inl (Or.inl hxy)
  · rw [standingsOrd_eq_iff] at hxy
    rcases Nat.le_total x.1 y.1 with h | h
    · exact Or.inl (Or.inr ⟨(standingsOrd_eq_iff _ _).mpr (by omega), h⟩)
    · exact Or.inr (Or.inr ⟨(standingsOrd_eq_iff _ _).mpr (by omega), h⟩)
  · rw [standingsOrd_gt_iff] at hxy
    exact Or.inr (Or.inl ((standingsOrd_lt_iff _ _).mpr (by omega)))

instance : IsTrans (Nat × StandingRow) stableLE := by
  constructor
  intro x y z hxy hyz
  rcases hxy with h1 | ⟨h1, hi1⟩ <;> rcases hyz with h2 | ⟨h2, hi2⟩
  · rw [standingsOrd_lt_iff] at h1 h2
    exact Or.inl ((standingsOrd_lt_iff _ _).mpr (by omega))
  · rw [standingsOrd_lt_iff] at h1
    rw [standingsOrd_eq_iff] at h2
    exact Or.inl ((standingsOrd_lt_iff _ _).mpr (by omega))
  · rw [standingsOrd_eq_iff] at h1
    rw [standingsOrd_lt_iff] at h2
    exact Or.inl ((standingsOrd_lt_iff _ _).mpr (by omega))
  · rw [standingsOrd_eq_iff] at h1 h2
    exact Or.inr ⟨(standingsOrd_eq_iff _ _).mpr (by omega), le_trans hi1 hi2⟩

/-- Follows the spec's words: row `a` may legitimately precede row `b` in
the table — `a` is no worse under descending points, then goal difference,
then goals-for. -/
def specBefore (a b : StandingRow) : Prop :=
  b.points < a.points ∨ (b.points = a.points ∧ (b.goalDifference < a.goalDifference ∨
    (b.goalDifference = a.goalDifference ∧ b.goalsFor ≤ a.goalsFor)))

theorem stableLE_specBefore (x y : Nat × StandingRow) (h : stableLE x y) :
    specBefore x.2 y.2 := by
  rcases h with h | ⟨h, _⟩
  · rw [standingsOrd_lt_iff] at h
    unfold specBefore
    omega
  · rw [standingsOrd_eq_iff] at h
    unfold specBefore
    omega

theorem stableSortRows_pairwise (rows : List StandingRow) :
    (stableSortRows rows).Pairwise specBefore := by
  unfold stableSortRows
  exact List.Pairwise.map Prod.snd stableLE_specBefore
    (List.sorted_insertionSort stableLE rows.enum)

theorem stableSortRows_perm (rows : List StandingRow) : (stableSortRows rows).Perm rows := by
  unfold stableSortRows
  have h := (List.perm_insertionSort stableLE rows.enum).map Prod.snd
  rw [List.enum_map_snd] at h
  exact h

theorem assignPositions_getElem? (l : List StandingRow) (k : Nat) :
    (assignPositions l)[k]? = (l[k]?).map fun row => { row with position := k + 1 } := by
  unfold assignPositions
  rw [List.getElem?_map, List.getElem?_enum]
  cases l[k]? <;> rfl

theorem assignPositions_length (l : List StandingRow) :
    (assignPositions l).length = l.length := by
  simp [assignPositions, List.enum_length]

theorem positions_enumFrom : ∀ (l : List StandingRow) (n : Nat),
    ((l.enumFrom n).map fun kr => ({ kr.2 with position := kr.1 + 1 } : StandingRow)).map
      StandingRow.position = List.range' (n + 1) l.length
  | [], _ => rfl
  | x :: xs, n => by
    show (n + 1) :: _ = _
    simp only [List.length_cons]
    rw [List.range'_succ]
    exact congrArg (List.cons (n + 1)) (positions_enumFrom xs (n + 1))

theorem assignPositions_positions (l : List StandingRow) :
    (assignPositions l).map StandingRow.position = List.range' 1 l.length := by
  unfold assignPositions
  rw [List.enum]
  exact positions_enumFrom l 0

theorem assignPositions_participants (l : List StandingRow) :
    (assignPositions l).map StandingRow.participant = l.map StandingRow.participant := by
  unfold assignPositions
  rw [List.map_map]
  have : (StandingRow.participant ∘ fun kr : Nat × StandingRow =>
      ({ kr.2 with position := kr.1 + 1 } : StandingRow)) =
      StandingRow.participant ∘ Prod.snd := rfl
  rw [this, ← List.map_map, List.enum_map_snd]

theorem snd_mem_of_mem_enumFrom {α : Type} (l : List α) (n : Nat) (x : Nat × α)
    (h : x ∈ l.enumFrom n) : x.2 ∈ l := by
  have h2 := List.mem_enumFrom h
  rw [h2.2.2]
  exact l.getElem_mem _

theorem pairwise_enumFrom {R : StandingRow → StandingRow → Prop} :
    ∀ (l : List StandingRow) (n : Nat), l.Pairwise R →
      (l.enumFrom n).Pairwise fun x y => R x.2 y.2
  | [], _, _ => List.Pairwise.nil
  | x :: xs, n, h => by
    rw [List.pairwise_cons] at h
    show ((n, x) :: xs.enumFrom (n + 1)).Pairwise _
    rw [List.pairwise_cons]
    exact ⟨fun y hy => h.1 y.2 (snd_mem_of_mem_enumFrom xs (n + 1) y hy),
      pairwise_enumFrom xs (n + 1) h.2⟩

theorem assignPositions_pairwise (l : List StandingRow) (h : l.Pairwise specBefore) :
    (assignPositions l).Pairwise specBefore := by
  unfold assignPositions
  refine List.Pairwise.map _ (fun x y hxy => hxy) ?_
  rw [List.enum]
  exact pairwise_enumFrom l 0 h

/-- Follows the spec's words: the fully accumulated table row of
participant `p` (before any position is assigned). -/
def specRow (regs : List Ident) (p : Ident) (fxs : List Fixture) : StandingRow :=
  { participant := p, position := 0,
    matchesPlayed := specPlayed regs p fxs,
    wins := specWins regs p fxs,
    losses := specLosses regs p fxs,
    draws := specDraws regs p fxs,
    points := 3 * specWins regs p fxs + specDraws regs p fxs,
    goalsFor := specGoalsFor regs p fxs,
    goalsAgainst := specGoalsAgainst regs p fxs,
    goalDifference :=
      (specGoalsFor regs p fxs : Int) - (specGoalsAgainst regs p fxs : Int) }

theorem standingRow_ext (a b : StandingRow)
    (h1 : a.participant = b.participant) (h2 : a.position = b.position)
    (h3 : a.matchesPlayed = b.matchesPlayed) (h4 : a.wins = b.wins)
    (h5 : a.losses = b.losses) (h6 : a.draws = b.draws) (h7 : a.points = b.points)
    (h8 : a.goalsFor = b.goalsFor) (h9 : a.goalsAgainst = b.goalsAgainst)
    (h10 : a.goalDifference = b.goalDifference) : a = b := by
  cases a
  cases b
  simp_all

theorem initRows_participants (regs : List Ident) :
    (regs.map initRow).map StandingRow.participant = regs := by
  rw [List.map_map]
  have h : StandingRow.participant ∘ initRow = id := rfl
  rw [h, List.map_id]

theorem acc2_getElem? (regs : List Ident) (fxs : List Fixture) (hnd : regs.Nodup)
    (hdiff : ∀ f ∈ fxs, participantsDifferent f = true) (i : Nat) :
    ((fxs.foldl applyCompletedFixture (regs.map initRow)).map setGoalDifference)[i]? =
      (regs[i]?).map fun p => specRow regs p fxs := by
  rw [List.getElem?_map,
    foldl_apply_getElem? regs hnd fxs (regs.map initRow) (initRows_participants regs) hdiff i,
    List.getElem?_map]
  cases hp : regs[i]? with
  | none => rfl
  | some p =>
    simp only [Option.map_some']
    show some (setGoalDifference (fxs.foldl (rowStep regs p) (initRow p))) = _
    obtain ⟨h1, h2, h3, h4, h5, h6, h7, h8, h9, h10⟩ := rowFold_stats regs p fxs (initRow p)
    refine congrArg some (standingRow_ext _ _ ?_ ?_ ?_ ?_ ?_ ?_ ?_ ?_ ?_ ?_)
    · show (fxs.foldl (rowStep regs p) (initRow p)).participant = p
      rw [h1]
      rfl
    · show (fxs.foldl (rowStep regs p) (initRow p)).position = 0
      rw [h2]
      rfl
    · show (fxs.foldl (rowStep regs p) (initRow p)).matchesPlayed = specPlayed regs p fxs
      rw [h4]
      simp [initRow]
    · show (fxs.foldl (rowStep regs p) (initRow p)).wins = specWins regs p fxs
      rw [h5]
      simp [initRow]
    · show (fxs.foldl (rowStep regs p) (initRow p)).losses = specLosses regs p fxs
      rw [h6]
      simp [initRow]
    · show (fxs.foldl (rowStep regs p) (initRow p)).draws = specDraws regs p fxs
      rw [h7]
      simp [initRow]
    · show (fxs.foldl (rowStep regs p) (initRow p)).points =
        3 * specWins regs p fxs + specDraws regs p fxs
      rw [h8]
      simp [initRow]
    · show (fxs.foldl (rowStep regs p) (initRow p)).goalsFor = specGoalsFor regs p fxs
      rw [h9]
      simp [initRow]
    · show (fxs.foldl (rowStep regs p) (initRow p)).goalsAgainst = specGoalsAgainst regs p fxs
      rw [h10]
      simp [initRow]
    · show ((fxs.foldl (rowStep regs p) (initRow p)).goalsFor : Int) -
        ((fxs.foldl (rowStep regs p) (initRow p)).goalsAgainst : Int) = _
      rw [h9, h10]
      show ((0 + specGoalsFor regs p fxs : Nat) : Int) -
        ((0 + specGoalsAgainst regs p fxs : Nat) : Int) = _
      simp [specRow]

theorem foldl_apply_participants : ∀ (fxs : List Fixture) (rows : List StandingRow),
    (fxs.foldl applyCompletedFixture rows).map StandingRow.participant =
      rows.map StandingRow.participant
  | [], _ => rfl
  | f :: fxs, rows => by
    simp only [List.foldl_cons]
    rw [foldl_apply_participants fxs (applyCompletedFixture rows f), apply_participants]

theorem acc2_participants (regs : List Ident) (fxs : List Fixture) :
    (((fxs.foldl applyCompletedFixture (regs.map initRow)).map setGoalDifference).map
      StandingRow.participant) = regs := by
  rw [List.map_map]
  have h : StandingRow.participant ∘ setGoalDifference = StandingRow.participant := rfl
  rw [h, foldl_apply_participants, initRows_participants]

theorem acc2_length (regs : List Ident) (fxs : List Fixture) :
    ((fxs.foldl applyCompletedFixture (regs.map initRow)).map setGoalDifference).length =
      regs.length := by
  have h := congrArg List.length (acc2_participants regs fxs)
  simpa using h

theorem specRow_points (regs : List Ident) (p : Ident) (fxs : List Fixture) :
    (specRow regs p fxs).points = 3 * specWins regs p fxs + specDraws regs p fxs := rfl

/-- C6: the round-robin standings calculator accumulates, per participant
and over exactly the counted completed matches, matches played, wins,
losses, draws, points (3 per win, 1 per draw), goals for and against and
their difference; the resulting table is a permutation of the registration
list sorted descending by points, then goal difference, then goals-for;
positions are assigned 1, 2, 3, … in sorted order; and residual ties keep
the registrations' input order (stability). -/
theorem roundRobinStandings_spec (regs : List Ident) (fxs : List Fixture)
    (hnd : regs.Nodup) (hdiff : ∀ f ∈ fxs, participantsDifferent f = true) :
    ((calculateRoundRobinStandings regs fxs).map StandingRow.participant).Perm regs ∧
    (calculateRoundRobinStandings regs fxs).Pairwise specBefore ∧
    (calculateRoundRobinStandings regs fxs).map StandingRow.position =
      List.range' 1 regs.length ∧
    (∀ p ∈ regs, ∃ row, row ∈ calculateRoundRobinStandings regs fxs ∧
      row.participant = p ∧
      row.matchesPlayed = specPlayed regs p fxs ∧
      row.wins = specWins regs p fxs ∧
      row.losses = specLosses regs p fxs ∧
      row.draws = specDraws regs p fxs ∧
      row.points = 3 * specWins regs p fxs + specDraws regs p fxs ∧
      row.goalsFor = specGoalsFor regs p fxs ∧
      row.goalsAgainst = specGoalsAgainst regs p fxs ∧
      row.goalDifference =
        (specGoalsFor regs p fxs : Int) - (specGoalsAgainst regs p fxs : Int)) ∧
    (∀ (i j : Nat) (p q : Ident), i < j → regs[i]? = some p → regs[j]? = some q →
      3 * specWins regs p fxs + specDraws regs p fxs =
        3 * specWins regs q fxs + specDraws regs q fxs →
      (specGoalsFor regs p fxs : Int) - (specGoalsAgainst regs p fxs : Int) =
        (specGoalsFor regs q fxs : Int) - (specGoalsAgainst regs q fxs : Int) →
      specGoalsFor regs p fxs = specGoalsFor regs q fxs →
      ∃ (ki kj : Nat) (ri rj : StandingRow), ki < kj ∧
        (calculateRoundRobinStandings regs fxs)[ki]? = some ri ∧
        (calculateRoundRobinStandings regs fxs)[kj]? = some rj ∧
        ri.participant = p ∧ rj.participant = q) := by
  set A := (fxs.foldl applyCompletedFixture (regs.map initRow)).map setGoalDifference with hA
  have hcalc : calculateRoundRobinStandings regs fxs = assignPositions (stableSortRows A) :=
    rfl
  have hAel : ∀ k : Nat, A[k]? = (regs[k]?).map fun p => specRow regs p fxs :=
    acc2_getElem? regs fxs hnd hdiff
  have hsortlen : (stableSortRows A).length = regs.length := by
    rw [(stableSortRows_perm A).length_eq, hA]
    exact acc2_length regs fxs
  refine ⟨?_, ?_, ?_, ?_, ?_⟩
  · rw [hcalc, assignPositions_participants]
    have hperm := (stableSortRows_perm A).map StandingRow.participant
    rw [show A.map StandingRow.participant = regs from acc2_participants regs fxs] at hperm
    exact hperm
  · rw [hcalc]
    exact assignPositions_pairwise _ (stableSortRows_pairwise A)
  · rw [hcalc, assignPositions_positions, hsortlen]
  · intro p hp
    obtain ⟨i, hip, hie⟩ := List.getElem_of_mem hp
    have hie? : regs[i]? = some p := by
      rw [List.getElem?_eq_getElem hip]
      exact congrArg some hie
    have hAi : A[i]? = some (specRow regs p fxs) := by
      rw [hAel i, hie?]
      rfl
    have hmemA : specRow regs p fxs ∈ A := List.getElem?_mem hAi
    have hmemS : specRow regs p fxs ∈ stableSortRows A :=
      ((stableSortRows_perm A).mem_iff).mpr hmemA
    obtain ⟨k, hk, hke⟩ := List.getElem_of_mem hmemS
    have hk? : (stableSortRows A)[k]? = some (specRow regs p fxs) := by
      rw [List.getElem?_eq_getElem hk]
      exact congrArg some hke
    have hout : (calculateRoundRobinStandings regs fxs)[k]? =
        some { specRow regs p fxs with position := k + 1 } := by
      rw [hcalc, assignPositions_getElem?, hk?]
      rfl
    refine ⟨{ specRow regs p fxs with position := k + 1 }, List.getElem?_mem hout,
      rfl, rfl, rfl, rfl, rfl, rfl, rfl, rfl, rfl⟩
  · intro i j p q hij hip hjq hpts hgd hgf
    have hAi : A[i]? = some (specRow regs p fxs) := by
      rw [hAel i, hip]
      rfl
    have hAj : A[j]? = some (specRow regs q fxs) := by
      rw [hAel j, hjq]
      rfl
    have hEi : A.enum[i]? = some (i, specRow regs p fxs) := by
      rw [List.getElem?_enum, hAi]
      rfl
    have hEj : A.enum[j]? = some (j, specRow regs q fxs) := by
      rw [List.getElem?_enum, hAj]
      rfl
    have hmemTi : (i, specRow regs p fxs) ∈ List.insertionSort stableLE A.enum := by
      rw [List.mem_insertionSort]
      exact List.getElem?_mem hEi
    have hmemTj : (j, specRow regs q fxs) ∈ List.insertionSort stableLE A.enum := by
      rw [List.mem_insertionSort]
      exact List.getElem?_mem hEj
    obtain ⟨ki, hkilt, hkie⟩ := List.getElem_of_mem hmemTi
    obtain ⟨kj, hkjlt, hkje⟩ := List.getElem_of_mem hmemTj
    have hkeys : standingsOrd (specRow regs q fxs) (specRow regs p fxs) = Ordering.eq := by
      rw [standingsOrd_eq_iff]
      refine ⟨hpts.symm, hgd.symm, hgf.symm⟩
    have hpair := List.sorted_insertionSort stableLE A.enum
    have hkij : ki < kj := by
      rcases Nat.lt_trichotomy ki kj with h | h | h
      · exact h
      · exfalso
        have hkiT : (List.insertionSort stableLE A.enum)[ki]? =
            some (i, specRow regs p fxs) := by
          rw [List.getElem?_eq_getElem hkilt, hkie]
        have hkjT : (List.insertionSort stableLE A.enum)[kj]? =
            some (j, specRow regs q fxs) := by
          rw [List.getElem?_eq_getElem hkjlt, hkje]
        rw [h] at hkiT
        have hpq : (i, specRow regs p fxs) = (j, specRow regs q fxs) := by
          injection hkiT.symm.trans hkjT
        have : i = j := congrArg Prod.fst hpq
        omega
      · exfalso
        have hrel := List.pairwise_iff_getElem.mp hpair kj ki hkjlt hkilt h
        rw [hkie, hkje] at hrel
        rcases hrel with hlt | ⟨_, hle⟩
        · rw [standingsOrd_lt_iff] at hlt
          rw [standingsOrd_eq_iff] at hkeys
          simp only [specRow] at hlt hkeys
          omega
        · have hji : j ≤ i := hle
          omega
    have hki? : (stableSortRows A)[ki]? = some (specRow regs p fxs) := by
      show ((List.insertionSort stableLE A.enum).map Prod.snd)[ki]? = _
      rw [List.getElem?_map, List.getElem?_eq_getElem hkilt, hkie]
      rfl
    have hkj? : (stableSortRows A)[kj]? = some (specRow regs q fxs) := by
      show ((List.insertionSort stableLE A.enum).map Prod.snd)[kj]? = _
      rw [List.getElem?_map, List.getElem?_eq_getElem hkjlt, hkje]
      rfl
    refine ⟨ki, kj, { specRow regs p fxs with position := ki + 1 },
      { specRow regs q fxs with position := kj + 1 }, hkij, ?_, ?_, rfl, rfl⟩
    · rw [hcalc, assignPositions_getElem?, hki?]
      rfl
    · rw [hcalc, assignPositions_getElem?, hkj?]
      rfl

/-- The participants of the spec's round-robin worked example. -/
def demoRegs : List Ident := [1, 2, 3]

/-- The three completed matches of the spec's worked example:
A 3-1 B, A 2-2 C, B 0-2 C with A=1, B=2, C=3. -/
def demoFixtures : List Fixture :=
  [{ id := 100, round := 1, matchNumber := 1, participant1 := some 1, participant2 := some 2,
     result := some { participant1Score := 3, participant2Score := 1, forfeit := false },
     status := FxStatus.Completed, winner := some 1 },
   { id := 101, round := 1, matchNumber := 2, participant1 := some 1, participant2 := some 3,
     result := some { participant1Score := 2, participant2Score := 2, forfeit := false },
     status := FxStatus.Completed, winner := none },
   { id := 102, round := 1, matchNumber := 3, participant1 := some 2, participant2 := some 3,
     result := some { participant1Score := 0, participant2Score := 2, forfeit := false },
     status := FxStatus.Completed, winner := some 3 }]

/-- C6 witness: the spec's worked example — A 3-1 B, A 2-2 C, B 0-2 C —
instantiating every hypothesis by computation. -/
theorem roundRobinStandings_spec_witness :
    demoRegs.Nodup ∧ (∀ f ∈ demoFixtures, participantsDifferent f = true) ∧
    (((calculateRoundRobinStandings demoRegs demoFixtures).map
        StandingRow.participant).Perm demoRegs ∧
      (calculateRoundRobinStandings demoRegs demoFixtures).Pairwise specBefore ∧
      (calculateRoundRobinStandings demoRegs demoFixtures).map StandingRow.position =
        List.range' 1 demoRegs.length ∧
      (∀ p ∈ demoRegs, ∃ row, row ∈ calculateRoundRobinStandings demoRegs demoFixtures ∧
        row.participant = p ∧
        row.matchesPlayed = specPlayed demoRegs p demoFixtures ∧
        row.wins = specWins demoRegs p demoFixtures ∧
        row.losses = specLosses demoRegs p demoFixtures ∧
        row.draws = specDraws demoRegs p demoFixtures ∧
        row.points = 3 * specWins demoRegs p demoFixtures + specDraws demoRegs p demoFixtures ∧
        row.goalsFor = specGoalsFor demoRegs p demoFixtures ∧
        row.goalsAgainst = specGoalsAgainst demoRegs p demoFixtures ∧
        row.goalDifference = (specGoalsFor demoRegs p demoFixtures : Int) -
          (specGoalsAgainst demoRegs p demoFixtures : Int)) ∧
      (∀ (i j : Nat) (p q : Ident), i < j → demoRegs[i]? = some p → demoRegs[j]? = some q →
        3 * specWins demoRegs p demoFixtures + specDraws demoRegs p demoFixtures =
          3 * specWins demoRegs q demoFixtures + specDraws demoRegs q demoFixtures →
        (specGoalsFor demoRegs p demoFixtures : Int) -
            (specGoalsAgainst demoRegs p demoFixtures : Int) =
          (specGoalsFor demoRegs q demoFixtures : Int) -
            (specGoalsAgainst demoRegs q demoFixtures : Int) →
        specGoalsFor demoRegs p demoFixtures = specGoalsFor demoRegs q demoFixtures →
        ∃ (ki kj : Nat) (ri rj : StandingRow), ki < kj ∧
          (calculateRoundRobinStandings demoRegs demoFixtures)[ki]? = some ri ∧
          (calculateRoundRobinStandings demoRegs demoFixtures)[kj]? = some rj ∧
          ri.participant = p ∧ rj.participant = q)) :=
  ⟨by decide, by decide,
    roundRobinStandings_spec demoRegs demoFixtures (by decide) (by decide)⟩

end SportsTournament
